import Mathlib

/-!
# Verification of the FHEVM example-generation and documentation-extraction pipeline

This file gives a shallow embedding of the three generator scripts of the
repository (`create-fhevm-example.ts`, `create-fhevm-category.ts`,
`generate-docs.ts`) and proves properties of them.

Modelling conventions:
* Strings are Lean `String`s; character-level work acts on `List Char`.
* JavaScript's global `String.prototype.replace` with a literal pattern is a
  left-to-right, non-overlapping replace-all (`replaceAllL`); none of the
  pattern keys contain regex metacharacters beyond braces (which Annex B
  treats literally) and none of the replacement values contain `$`.
* Filesystem paths are sequences of segments plus an absolute flag (`JPath`),
  mirroring POSIX `path.join` on already-normalised segments; the filesystem
  is a `World`: an association list of files (most recent write first) plus a
  list of existing directories.
* `JSON.parse` / `JSON.stringify(v, null, 2)` are modelled by an executable
  recursive-descent parser and a 2-space-indent printer over `JVal`; number
  lexemes are kept as raw strings (no claim here depends on numeric
  re-canonicalisation).
-/

/-! ## Character-level string machinery -/

/-- Does `pat` occur as a contiguous sublist of `s`? (Substring occurrence.) -/
def occursL (pat : List Char) : List Char → Bool
  | [] => pat.isPrefixOf []
  | c :: rest => pat.isPrefixOf (c :: rest) || occursL pat rest

/-- String-level substring occurrence. -/
def occursS (pat s : String) : Bool := occursL pat.data s.data

/-- Split `s` at the first occurrence of `pat`: returns `(before, after)` with
`s = before ++ pat ++ after`, or `none` when `pat` does not occur in `s`. -/
def splitFirst (pat : List Char) : List Char → Option (List Char × List Char)
  | [] => if pat.isPrefixOf ([] : List Char) then some ([], []) else none
  | c :: rest =>
    if pat.isPrefixOf (c :: rest) then some ([], (c :: rest).drop pat.length)
    else (splitFirst pat rest).map (fun q => (c :: q.1, q.2))

/-- Tail-recursive list length (kernel-reduction-friendly). -/
def listLen (acc : Nat) : List α → Nat
  | [] => acc
  | _ :: t => listLen (acc + 1) t

/-- Scanner of `replaceAllL`, structurally recursive on a fuel that the
wrapper sets large enough to never run out (each step consumes at least one
character of `s`; the wrapper guarantees a non-empty pattern). -/
def replaceGo (pat rep : List Char) : Nat → List Char → List Char
  | 0, s => s
  | _ + 1, [] => []
  | f + 1, c :: rest =>
    if pat.isPrefixOf (c :: rest) then
      rep ++ replaceGo pat rep f ((c :: rest).drop (listLen 0 pat))
    else c :: replaceGo pat rep f rest

/-- Left-to-right, non-overlapping replace-all on character lists: the
semantics of JavaScript `s.replace(new RegExp(lit, 'g'), rep)` for a literal
pattern `lit` and a replacement `rep` containing no `$` patterns.  (The
scripts never call it with an empty pattern; `s` comes back unchanged there.) -/
def replaceAllL (pat rep s : List Char) : List Char :=
  if pat = [] then s else replaceGo pat rep (listLen 0 s) s

/-- String-level replace-all. -/
def replaceAllS (pat rep s : String) : String := ⟨replaceAllL pat.data rep.data s.data⟩

/-- JavaScript `\s` (also the character class used by `String.prototype.trim`). -/
def jsWs (c : Char) : Bool :=
  c = ' ' || c = '\t' || c = '\n' || c = '\r' || c = '\x0b' || c = '\x0c' ||
  c.val = 0xa0 || c.val = 0x1680 || (0x2000 ≤ c.val && c.val ≤ 0x200a) ||
  c.val = 0x2028 || c.val = 0x2029 || c.val = 0x202f || c.val = 0x205f ||
  c.val = 0x3000 || c.val = 0xfeff

/-- JavaScript line terminators (the characters `.` does not match). -/
def lineTerm (c : Char) : Bool :=
  c = '\n' || c = '\r' || c.val = 0x2028 || c.val = 0x2029

/-- JavaScript `String.prototype.trim` on character lists. -/
def trimL (s : List Char) : List Char :=
  ((s.dropWhile jsWs).reverse.dropWhile jsWs).reverse

/-- JavaScript `String.prototype.trim`. -/
def strTrim (s : String) : String := ⟨trimL s.data⟩

/-- ASCII lower-casing, the effect of `toLowerCase()` on the ASCII registry data. -/
def lowerS (s : String) : String := ⟨s.data.map Char.toLower⟩

/-- Model of `s.charAt(0).toUpperCase() + s.slice(1)`. -/
def capFirst (s : String) : String :=
  match s.data with
  | [] => ""
  | c :: rest => ⟨Char.toUpper c :: rest⟩

/-! ## Paths and the filesystem model -/

/-- A filesystem path: an `absolute` flag plus a list of segments.
`path.join(p, seg)` appends a segment and keeps the flag, exactly as POSIX
`path.join` does on normalised inputs: joining onto a relative path stays
relative. -/
structure JPath where
  absolute : Bool
  segs : List String
deriving DecidableEq, Repr

/-- Model of `path.join(p, seg)` for a single normalised segment. -/
def joinP (p : JPath) (s : String) : JPath := ⟨p.absolute, p.segs ++ [s]⟩

/-- Extend a path by several segments. -/
def extendP (p : JPath) (rel : List String) : JPath := ⟨p.absolute, p.segs ++ rel⟩

/-- The filesystem: files as an association list from path to contents, most
recent write first, plus the set (list, no duplicates are ever added) of
directories that exist. -/
structure World where
  files : List (JPath × String)
  dirs : List JPath
deriving DecidableEq, Repr

/-- Read a file: the most recent write wins. `none` = no such file
(`fs.readFileSync` would throw). -/
def readFile (w : World) (p : JPath) : Option String :=
  (w.files.find? (fun e => e.1 = p)).map (·.2)

/-- Model of `fs.existsSync` restricted to files. -/
def existsFile (w : World) (p : JPath) : Bool := (readFile w p).isSome

/-- Does a directory exist? -/
def existsDir (w : World) (p : JPath) : Bool := w.dirs.contains p

/-- Model of `fs.existsSync`: true when a file or a directory exists at `p`. -/
def existsFS (w : World) (p : JPath) : Bool := existsFile w p || existsDir w p

/-- Model of `fs.writeFileSync`. -/
def writeFile (w : World) (p : JPath) (c : String) : World :=
  { w with files := (p, c) :: w.files }

/-- All non-empty prefixes of a path (ancestors, shortest first, ending with
the path itself). -/
def prefixesOf (p : JPath) : List JPath :=
  (List.range p.segs.length).map (fun n => ⟨p.absolute, p.segs.take (n + 1)⟩)

/-- Model of `fs.mkdirSync(p, { recursive: true })`: create every missing ancestor of
`p` and `p` itself.  Newly created directories are prepended deepest-first, so
`w.dirs` lists directories in reverse creation order. -/
def mkdirRec (w : World) (p : JPath) : World :=
  { w with dirs := ((prefixesOf p).filter (fun q => !existsDir w q)).reverse ++ w.dirs }

/-- The path of `p` relative to `src` when `p` lies strictly under `src`. -/
def relUnder (src : JPath) (p : JPath) : Option (List String) :=
  if src.absolute = p.absolute ∧ src.segs <+: p.segs ∧ p.segs ≠ src.segs then
    some (p.segs.drop src.segs.length)
  else none

/-- Helper of `dedupFiles`: keep the first entry for each path, skipping
paths already seen. -/
def dedupFilesAux (seen : List JPath) : List (JPath × String) → List (JPath × String)
  | [] => []
  | (p, c) :: rest =>
    if seen.contains p then dedupFilesAux seen rest
    else (p, c) :: dedupFilesAux (p :: seen) rest

/-- The visible file entries of `w` (shadowed older writes removed, most
recent content kept, most-recently-written paths first). -/
def dedupFiles (l : List (JPath × String)) : List (JPath × String) := dedupFilesAux [] l

/-- The files lying strictly under `src`, as (relative path, contents) pairs. -/
def filesUnder (w : World) (src : JPath) : List (List String × String) :=
  (dedupFiles w.files).filterMap (fun e => (relUnder src e.1).map (·, e.2))

/-- The directories lying strictly under `src`, as relative paths. -/
def dirsUnder (w : World) (src : JPath) : List (List String) :=
  w.dirs.filterMap (relUnder src)

/-- Model of `copyDirectory(src, dest)` of `create-fhevm-example.ts`: recursively copy
the tree under `src` to `dest`, creating `dest` (and each copied
subdirectory) when missing, copying every file byte-for-byte and preserving
relative structure.  `none` when `src` is not an existing directory
(`fs.readdirSync` would throw). -/
def copyDirectory (w : World) (src dest : JPath) : Option World :=
  if existsDir w src then
    let w1 := if existsFS w dest then w else mkdirRec w dest
    let w2 := (dirsUnder w src).foldl
      (fun acc rel =>
        let d := extendP dest rel
        if existsFS acc d then acc else mkdirRec acc d) w1
    some { w2 with
      files := (filesUnder w src).map (fun e => (extendP dest e.1, e.2)) ++ w2.files }
  else none

/-! ## A small JSON model (`JSON.parse` / `JSON.stringify(v, null, 2)`)

Number lexemes are kept raw; the scripts only round-trip a manifest through
parse/stringify and this file never depends on numeric canonicalisation. -/

/-- JSON values. -/
inductive JVal where
  | jnull
  | jbool (b : Bool)
  | jnum (raw : String)
  | jstr (s : String)
  | jarr (xs : List JVal)
  | jobj (fields : List (String × JVal))

/-- JSON whitespace. -/
def jsonWsChar (c : Char) : Bool := c = ' ' || c = '\t' || c = '\n' || c = '\r'

/-- Skip JSON whitespace. -/
def skipWs (s : List Char) : List Char := s.dropWhile jsonWsChar

/-- Characters that may appear in a JSON number lexeme. -/
def jsonNumChar (c : Char) : Bool :=
  c.isDigit || c = '-' || c = '+' || c = '.' || c = 'e' || c = 'E'

/-- Hex digit value. -/
def hexVal (c : Char) : Option Nat :=
  if '0' ≤ c ∧ c ≤ '9' then some (c.toNat - '0'.toNat)
  else if 'a' ≤ c ∧ c ≤ 'f' then some (c.toNat - 'a'.toNat + 10)
  else if 'A' ≤ c ∧ c ≤ 'F' then some (c.toNat - 'A'.toNat + 10)
  else none

/-- Parse the body of a JSON string (after the opening quote). -/
def parseStrAux : Nat → List Char → List Char → Option (String × List Char)
  | 0, _, _ => none
  | _ + 1, [], _ => none
  | f + 1, c :: rest, acc =>
    if c = '"' then some (⟨acc.reverse⟩, rest)
    else if c = '\\' then
      match rest with
      | [] => none
      | e :: rest' =>
        if e = '"' then parseStrAux f rest' ('"' :: acc)
        else if e = '\\' then parseStrAux f rest' ('\\' :: acc)
        else if e = '/' then parseStrAux f rest' ('/' :: acc)
        else if e = 'b' then parseStrAux f rest' ('\x08' :: acc)
        else if e = 'f' then parseStrAux f rest' ('\x0c' :: acc)
        else if e = 'n' then parseStrAux f rest' ('\n' :: acc)
        else if e = 'r' then parseStrAux f rest' ('\r' :: acc)
        else if e = 't' then parseStrAux f rest' ('\t' :: acc)
        else if e = 'u' then
          match rest'.take 4 |>.mapM hexVal with
          | some [a, b, c1, d] =>
            parseStrAux f (rest'.drop 4)
              (Char.ofNat (((a * 16 + b) * 16 + c1) * 16 + d) :: acc)
          | _ => none
        else none
    else parseStrAux f rest (c :: acc)

/-- Property creation/assignment order of a JavaScript object: an existing
(string, non-integer-like) key keeps its position and gets the new value; a
new key is appended. -/
def setFieldJS (fs : List (String × JVal)) (k : String) (v : JVal) :
    List (String × JVal) :=
  if fs.any (fun e => e.1 = k) then fs.map (fun e => if e.1 = k then (k, v) else e)
  else fs ++ [(k, v)]

/-- Parse the elements of a non-empty JSON array (already past `[`); the
nested values are parsed by `pv`, the value parser at the enclosing fuel
level.  The fuel here bounds the number of elements. -/
def parseElems (pv : List Char → Option (JVal × List Char)) :
    Nat → List Char → Option (List JVal × List Char)
  | 0, _ => none
  | f + 1, s =>
    match pv s with
    | none => none
    | some (v, r) =>
      match skipWs r with
      | ',' :: r' => (parseElems pv f r').map (fun q => (v :: q.1, q.2))
      | ']' :: r' => some ([v], r')
      | _ => none

/-- Parse the fields of a non-empty JSON object (already past `{`),
accumulating with JavaScript property-creation semantics (duplicate key:
value overwritten, position kept); the nested values are parsed by `pv`.
The fuel here bounds the number of fields. -/
def parseFields (pv : List Char → Option (JVal × List Char)) :
    Nat → List (String × JVal) → List Char →
    Option (List (String × JVal) × List Char)
  | 0, _, _ => none
  | f + 1, acc, s =>
    match skipWs s with
    | '"' :: r =>
      match parseStrAux (f + 1) r [] with
      | none => none
      | some (k, r1) =>
        match skipWs r1 with
        | ':' :: r2 =>
          match pv r2 with
          | none => none
          | some (v, r3) =>
            match skipWs r3 with
            | ',' :: r4 => parseFields pv f (setFieldJS acc k v) r4
            | '}' :: r4 => some (setFieldJS acc k v, r4)
            | _ => none
        | _ => none
    | _ => none

/-- Recursive-descent JSON value parser (fuel-driven; the fuel bounds the
nesting depth and always suffices at the fuel passed from the top level). -/
def parseVal : Nat → List Char → Option (JVal × List Char)
  | 0, _ => none
  | f + 1, s =>
    match skipWs s with
    | [] => none
    | c :: rest =>
      if c = '"' then (parseStrAux (f + 1) rest []).map (fun q => (.jstr q.1, q.2))
      else if c = 't' then
        if ['r', 'u', 'e'].isPrefixOf rest then some (.jbool true, rest.drop 3) else none
      else if c = 'f' then
        if ['a', 'l', 's', 'e'].isPrefixOf rest then some (.jbool false, rest.drop 4) else none
      else if c = 'n' then
        if ['u', 'l', 'l'].isPrefixOf rest then some (.jnull, rest.drop 3) else none
      else if c = '[' then
        match skipWs rest with
        | ']' :: r => some (.jarr [], r)
        | r => (parseElems (fun t => parseVal f t) (f + 1) r).map (fun q => (.jarr q.1, q.2))
      else if c = '{' then
        match skipWs rest with
        | '}' :: r => some (.jobj [], r)
        | r => (parseFields (fun t => parseVal f t) (f + 1) [] r).map (fun q => (.jobj q.1, q.2))
      else if c = '-' || c.isDigit then
        let raw := (c :: rest).takeWhile jsonNumChar
        some (.jnum ⟨raw⟩, (c :: rest).drop raw.length)
      else none

/-- Model of `JSON.parse`: parse a full JSON document (trailing garbage rejected). -/
def parseJson (s : String) : Option JVal :=
  match parseVal (s.length + 2) s.data with
  | some (v, r) => if skipWs r = [] then some v else none
  | none => none

/-- Escape one character for a JSON string literal. -/
def jsonEscChar (c : Char) : List Char :=
  if c = '"' then ['\\', '"']
  else if c = '\\' then ['\\', '\\']
  else if c = '\n' then ['\\', 'n']
  else if c = '\r' then ['\\', 'r']
  else if c = '\t' then ['\\', 't']
  else if c = '\x08' then ['\\', 'b']
  else if c = '\x0c' then ['\\', 'f']
  else if c.val < 0x20 then
    let lo := c.toNat % 16
    let hi := c.toNat / 16 % 16
    let dig := fun (n : Nat) => if n < 10 then Char.ofNat ('0'.toNat + n)
                                else Char.ofNat ('a'.toNat + n - 10)
    ['\\', 'u', '0', '0', dig hi, dig lo]
  else [c]

/-- Serialise a string as a JSON string literal. -/
def jsonEscape (s : String) : String := ⟨'"' :: s.data.flatMap jsonEscChar ++ ['"']⟩

/-- Model of `n` levels of two-space indentation. -/
def ind (n : Nat) : String := ⟨List.replicate (2 * n) ' '⟩

mutual

/-- Model of `JSON.stringify(v, null, 2)` at nesting depth `d`. -/
def stringifyV (d : Nat) : JVal → String
  | .jnull => "null"
  | .jbool true => "true"
  | .jbool false => "false"
  | .jnum raw => raw
  | .jstr s => jsonEscape s
  | .jarr xs =>
    match xs with
    | [] => "[]"
    | _ => "[\n" ++ String.intercalate ",\n" (stringifyItems (d + 1) xs) ++ "\n" ++ ind d ++ "]"
  | .jobj fs =>
    match fs with
    | [] => "\x7b\x7d"
    | _ => "\x7b\n" ++ String.intercalate ",\n" (stringifyFields (d + 1) fs) ++ "\n" ++ ind d ++ "\x7d"

/-- Array items, each on its own indented line. -/
def stringifyItems (d : Nat) : List JVal → List String
  | [] => []
  | x :: xs => (ind d ++ stringifyV d x) :: stringifyItems d xs

/-- Object fields, each on its own indented line. -/
def stringifyFields (d : Nat) : List (String × JVal) → List String
  | [] => []
  | (k, v) :: fs => (ind d ++ jsonEscape k ++ ": " ++ stringifyV d v) :: stringifyFields d fs

end

/-- Model of `JSON.stringify(v, null, 2)`. -/
def stringify2 (v : JVal) : String := stringifyV 0 v

/-! ## The registries (`EXAMPLES`, `CATEGORIES`) -/

/-- Model of `ExampleConfig` of `create-fhevm-example.ts`.  `difficulty` is one of the
string literals `"beginner" | "intermediate" | "advanced"`. -/
structure ExampleConfig where
  name : String
  title : String
  description : String
  concept : String
  learningObjectives : List String
  fhevmFeatures : List String
  chapter : String
  difficulty : String
  contractFile : String
  testFile : String
  useCaseDescription : String
deriving DecidableEq, Repr

/-- Model of `CategoryConfig` of `create-fhevm-category.ts`. -/
structure CategoryConfig where
  name : String
  title : String
  description : String
  examples : List String
  difficulty : String
  overview : String
deriving DecidableEq, Repr

/-- The EXAMPLES registry of `create-fhevm-example.ts`: a static mapping from
example identifiers to their `ExampleConfig`, in declaration (insertion) order. -/
def EXAMPLES : List (String × ExampleConfig) := [
  ("access-control",
   { name := "access-control",
     title := "Access Control for Encrypted Data",
     description := "Learn how to manage permissions for encrypted data using FHE.allow and FHE.allowThis",
     concept := "Access Control Lists (ACL) in FHEVM determine who can access encrypted data. This example shows how to grant and manage permissions for encrypted loan amounts in a lending platform.",
     learningObjectives := ["Understand FHE.allow() for granting user permissions", "Use FHE.allowThis() for contract self-permissions", "Implement role-based access patterns", "Manage encrypted data visibility"],
     fhevmFeatures := ["FHE.allow() - Grant permission to specific address", "FHE.allowThis() - Grant permission to contract itself", "FHE.allowTransient() - Temporary permissions", "euint32 handles - Encrypted 32-bit integers"],
     chapter := "access-control",
     difficulty := "beginner",
     contractFile := "LendingAccessControl.sol",
     testFile := "AccessControl.test.ts",
     useCaseDescription := "In a privacy-preserving lending platform, borrowers need to view their own loan amounts while keeping them hidden from others. Access control ensures only authorized parties can decrypt sensitive financial data." }),
  ("encrypted-arithmetic",
   { name := "encrypted-arithmetic",
     title := "Arithmetic Operations on Encrypted Data",
     description := "Perform calculations on encrypted values without revealing the underlying data",
     concept := "Fully Homomorphic Encryption allows mathematical operations on encrypted data. This example demonstrates how to calculate interest and total repayment amounts on encrypted loan values.",
     learningObjectives := ["Perform FHE.add() for encrypted addition", "Use FHE.mul() for encrypted multiplication", "Apply FHE.sub() for encrypted subtraction", "Handle encrypted arithmetic in real scenarios"],
     fhevmFeatures := ["FHE.add() - Encrypted addition", "FHE.sub() - Encrypted subtraction", "FHE.mul() - Encrypted multiplication", "euint32 - Handle encrypted integers", "Scalar multiplication with plaintext values"],
     chapter := "arithmetic",
     difficulty := "beginner",
     contractFile := "LendingArithmetic.sol",
     testFile := "Arithmetic.test.ts",
     useCaseDescription := "Calculate loan interest and total repayment amounts on encrypted principal values, ensuring borrowers privacy while maintaining accurate financial calculations." }),
  ("encrypted-comparison",
   { name := "encrypted-comparison",
     title := "Comparison Operations on Encrypted Data",
     description := "Compare encrypted values and make decisions based on encrypted conditions",
     concept := "FHEVM supports comparison operations that return encrypted boolean results. This example shows how to check if a loan is fully repaid without revealing the actual balance.",
     learningObjectives := ["Use FHE.eq() for encrypted equality checks", "Work with ebool encrypted boolean type", "Implement conditional logic on encrypted data", "Handle encrypted comparison results"],
     fhevmFeatures := ["FHE.eq() - Encrypted equality comparison", "ebool - Encrypted boolean type", "FHE.lt() / FHE.gt() - Less than / Greater than", "Encrypted conditional branching"],
     chapter := "comparison",
     difficulty := "intermediate",
     contractFile := "LendingComparison.sol",
     testFile := "Comparison.test.ts",
     useCaseDescription := "Verify loan repayment status by checking if the encrypted remaining balance equals zero, without exposing the actual balance amount to unauthorized parties." }),
  ("user-decryption",
   { name := "user-decryption",
     title := "User-Specific Decryption Patterns",
     description := "Enable authorized users to decrypt their own encrypted data",
     concept := "User decryption allows specific addresses to decrypt encrypted values they are authorized to access. This example demonstrates how borrowers and lenders can decrypt loan details specific to them.",
     learningObjectives := ["Implement user-specific decryption", "Use access control for decryption authorization", "Handle decryption requests securely", "Manage multiple authorized decryptors"],
     fhevmFeatures := ["User decryption with authorization checks", "ACL-based decryption permissions", "Multiple decryptor support", "Secure key management"],
     chapter := "decryption",
     difficulty := "intermediate",
     contractFile := "LendingUserDecryption.sol",
     testFile := "UserDecryption.test.ts",
     useCaseDescription := "Allow borrowers to decrypt their loan amounts and lenders to decrypt details of loans they funded, while maintaining privacy from unauthorized users." }),
  ("credit-scoring",
   { name := "credit-scoring",
     title := "Privacy-Preserving Credit Scoring",
     description := "Manage encrypted credit scores using euint8 for smaller encrypted values",
     concept := "Encrypted credit scores protect user financial privacy while enabling risk assessment. This example uses euint8 for efficient storage of 0-100 credit score values.",
     learningObjectives := ["Use euint8 for small encrypted integers", "Implement credit score updates", "Handle encrypted score comparisons", "Manage privacy-preserving risk assessment"],
     fhevmFeatures := ["euint8 - 8-bit encrypted integers", "Efficient encrypted small values", "Update encrypted scores", "Range-bound encrypted data (0-100)"],
     chapter := "advanced-patterns",
     difficulty := "intermediate",
     contractFile := "LendingCreditScore.sol",
     testFile := "CreditScore.test.ts",
     useCaseDescription := "Store and update encrypted credit scores for privacy-preserving loan risk assessment, ensuring users financial history remains confidential." }),
  ("input-proofs",
   { name := "input-proofs",
     title := "Input Proof Validation",
     description := "Handle encrypted inputs securely with proper validation",
     concept := "Input proofs ensure encrypted values submitted by users are valid and cannot be manipulated. This example shows proper patterns for accepting encrypted loan amounts.",
     learningObjectives := ["Understand input proof requirements", "Validate encrypted user inputs", "Handle proof verification", "Avoid common input handling mistakes"],
     fhevmFeatures := ["Input proof validation", "Secure encrypted input handling", "FHE.asEuint32() for input conversion", "Proof verification patterns"],
     chapter := "security",
     difficulty := "advanced",
     contractFile := "LendingInputProofs.sol",
     testFile := "InputProofs.test.ts",
     useCaseDescription := "Accept encrypted loan amount requests from users with proper validation, preventing manipulation and ensuring data integrity." })
]

/-- The CATEGORIES registry of `create-fhevm-category.ts`, in declaration order. -/
def CATEGORIES : List (String × CategoryConfig) := [
  ("basics",
   { name := "basics",
     title := "FHEVM Basics",
     description := "Foundational concepts for working with encrypted data",
     examples := ["access-control", "encrypted-arithmetic", "encrypted-comparison"],
     difficulty := "Beginner",
     overview := "This category covers the fundamental concepts of FHEVM development:\n\n- **Access Control**: Learn how to manage permissions for encrypted data\n- **Encrypted Arithmetic**: Perform calculations on encrypted values\n- **Encrypted Comparison**: Compare encrypted data and make decisions\n\nThese examples provide the building blocks for privacy-preserving smart contracts." }),
  ("decryption",
   { name := "decryption",
     title := "Decryption Patterns",
     description := "Techniques for securely decrypting encrypted data",
     examples := ["user-decryption"],
     difficulty := "Intermediate",
     overview := "Master the art of decrypting encrypted data securely:\n\n- **User Decryption**: Allow authorized users to decrypt their own data\n- **Multi-Party Decryption**: Coordinate decryption among multiple parties\n- **Threshold Decryption**: Require multiple keys to decrypt\n\nLearn when and how to reveal encrypted information safely." }),
  ("advanced",
   { name := "advanced",
     title := "Advanced FHEVM Patterns",
     description := "Complex patterns and real-world applications",
     examples := ["credit-scoring", "input-proofs"],
     difficulty := "Advanced",
     overview := "Explore sophisticated FHEVM patterns for production systems:\n\n- **Credit Scoring**: Privacy-preserving risk assessment\n- **Input Proofs**: Secure validation of encrypted inputs\n- **Complex Calculations**: Multi-step encrypted operations\n\nThese examples demonstrate production-ready patterns from real applications." }),
  ("lending",
   { name := "lending",
     title := "Privacy-Preserving Lending",
     description := "Complete lending platform examples with FHEVM",
     examples := ["access-control", "encrypted-arithmetic", "user-decryption", "credit-scoring"],
     difficulty := "Mixed",
     overview := "Build a complete privacy-preserving lending platform:\n\nThis category combines multiple FHEVM concepts to create a real-world application\nwhere borrowers and lenders can transact without revealing sensitive financial information.\n\nLearn how to:\n- Accept encrypted loan requests\n- Calculate interest on encrypted amounts\n- Manage permissions for borrowers and lenders\n- Implement private credit scoring\n- Track encrypted loan balances" })
]


/-- Own-property lookup of the `EXAMPLES` object literal: `some` exactly on the
registry keys (insertion order is irrelevant to lookup, first match wins and
keys are distinct).  The full JavaScript member access `EXAMPLES[id]` also
reaches the prototype chain; that part is `jsIndex` below. -/
def lookupEx (id : String) : Option ExampleConfig :=
  (EXAMPLES.find? (fun e => e.1 = id)).map (·.2)

/-- The properties a plain object literal inherits from `Object.prototype`,
each paired with the string that `${value.name}` interpolates for the
inherited value: the built-in methods are functions whose `name` is the
property name, except `constructor`, whose value is the `Object` function
(name `Object`), and `__proto__`, an accessor yielding `Object.prototype`
itself, whose `name` property is `undefined` (interpolating as
`undefined`). -/
def protoProps : List (String × String) :=
  [ ("constructor", "Object"),
    ("hasOwnProperty", "hasOwnProperty"),
    ("isPrototypeOf", "isPrototypeOf"),
    ("propertyIsEnumerable", "propertyIsEnumerable"),
    ("toLocaleString", "toLocaleString"),
    ("toString", "toString"),
    ("valueOf", "valueOf"),
    ("__defineGetter__", "__defineGetter__"),
    ("__defineSetter__", "__defineSetter__"),
    ("__lookupGetter__", "__lookupGetter__"),
    ("__lookupSetter__", "__lookupSetter__"),
    ("__proto__", "undefined") ]

/-- The `${value.name}` string of the `Object.prototype` member named `id`,
when there is one. -/
def protoName (id : String) : Option String :=
  (protoProps.find? (fun p => p.1 = id)).map (·.2)

/-- Result of the JavaScript member access `EXAMPLES[id]` on the plain object
literal `EXAMPLES`: an own key yields its config; the name of an
`Object.prototype` member yields that inherited value — truthy but not a
config, remembered here by its `.name` interpolation; anything else is
`undefined`. -/
inductive JsLookup where
  | own (c : ExampleConfig)
  | inherited (nm : String)
  | undefined

/-- Model of `EXAMPLES[exampleName]` including the prototype chain: own keys
shadow the prototype, prototype members are truthy non-configs, everything
else is `undefined` (falsy, so `if (!config)` fires only here). -/
def jsIndex (id : String) : JsLookup :=
  match lookupEx id with
  | some c => .own c
  | none =>
    match protoName id with
    | some nm => .inherited nm
    | none => .undefined

/-- Model of `CATEGORIES[id]`. -/
def lookupCat (id : String) : Option CategoryConfig :=
  (CATEGORIES.find? (fun e => e.1 = id)).map (·.2)

/-! ## Template rendering (`generateReadme`) -/

-- README.template.md, transcribed from the repository template
def README_TEMPLATE : String :=
  "# \x7b\x7bEXAMPLE_TITLE\x7d\x7d\n\n**\x7b\x7bEXAMPLE_DESCRIPTION\x7d\x7d**\n\n> Part of FHEVM Examples Hub - Learn privacy-preserving smart contract development\n\n## Concept\n\n\x7b\x7bCONCEPT_EXPLANATION\x7d\x7d\n\n## What You\x27ll Learn\n\n\x7b\x7bLEARNING_OBJECTIVES\x7d\x7d\n\n## Contract Overview\n\n\x7b\x7bCONTRACT_DESCRIPTION\x7d\x7d\n\n## Key FHEVM Features\n\n\x7b\x7bFHEVM_FEATURES\x7d\x7d\n\n## Installation\n\n```bash\n# Install dependencies\nnpm install\n\n# Compile contracts\nnpm run compile\n\n# Run tests\nnpm test\n```\n\n## Usage Example\n\n\x7b\x7bUSAGE_EXAMPLE\x7d\x7d\n\n## Test Coverage\n\nThis example includes comprehensive tests demonstrating:\n\n\x7b\x7bTEST_COVERAGE_POINTS\x7d\x7d\n\n## Common Pitfalls\n\n\x7b\x7bCOMMON_MISTAKES\x7d\x7d\n\n## Best Practices\n\n\x7b\x7bBEST_PRACTICES\x7d\x7d\n\n## Real-World Use Case\n\n\x7b\x7bUSE_CASE\x7d\x7d\n\n## Next Steps\n\nAfter understanding this example, explore:\n\n\x7b\x7bNEXT_EXAMPLES\x7d\x7d\n\n## Resources\n\n- [Zama fhEVM Documentation](https://docs.zama.ai/fhevm)\n- [FHEVM Examples Hub](../)\n- [Privacy Lending Platform](https://github.com/GeovanniParker/PrivacyLending)\n\n## License\n\nMIT License - Free to use and learn from\n\n---\n\n**Chapter**: \x7b\x7bCHAPTER_TAG\x7d\x7d\n\n**Difficulty**: \x7b\x7bDIFFICULTY_LEVEL\x7d\x7d\n"


/-- The `replacements` record of `generateReadme`, as the ordered list of
(placeholder, replacement) pairs produced by `Object.entries` (insertion
order). List-valued fields are rendered as newline-joined bullet items. -/
def replacements (config : ExampleConfig) : List (String × String) :=
  [ ("\x7b\x7bEXAMPLE_TITLE\x7d\x7d", config.title),
    ("\x7b\x7bEXAMPLE_DESCRIPTION\x7d\x7d", config.description),
    ("\x7b\x7bCONCEPT_EXPLANATION\x7d\x7d", config.concept),
    ("\x7b\x7bLEARNING_OBJECTIVES\x7d\x7d",
      String.intercalate "\n" (config.learningObjectives.map (fun obj => "- " ++ obj))),
    ("\x7b\x7bCONTRACT_DESCRIPTION\x7d\x7d",
      "This example implements `" ++ config.contractFile ++ "`, demonstrating " ++
        lowerS config.description ++ "."),
    ("\x7b\x7bFHEVM_FEATURES\x7d\x7d",
      String.intercalate "\n" (config.fhevmFeatures.map (fun feat => "- **" ++ feat ++ "**"))),
    ("\x7b\x7bUSAGE_EXAMPLE\x7d\x7d",
      "See `test/" ++ config.testFile ++ "` for detailed usage examples with annotations."),
    ("\x7b\x7bTEST_COVERAGE_POINTS\x7d\x7d",
      String.intercalate "\n" (config.learningObjectives.map (fun obj => "- " ++ obj))),
    ("\x7b\x7bCOMMON_MISTAKES\x7d\x7d",
      "- Missing FHE.allowThis() before operations\n- Forgetting to grant user permissions with FHE.allow()\n- Incorrect input proof handling"),
    ("\x7b\x7bBEST_PRACTICES\x7d\x7d",
      "- Always call FHE.allowThis() for contract operations\n- Grant minimal necessary permissions\n- Use appropriate encrypted type sizes (euint8 vs euint32)"),
    ("\x7b\x7bUSE_CASE\x7d\x7d", config.useCaseDescription),
    ("\x7b\x7bNEXT_EXAMPLES\x7d\x7d",
      "- Advanced access control patterns\n- Multi-party decryption\n- Complex encrypted calculations"),
    ("\x7b\x7bCHAPTER_TAG\x7d\x7d", config.chapter),
    ("\x7b\x7bDIFFICULTY_LEVEL\x7d\x7d", capFirst config.difficulty) ]

/-- The rendering loop of `generateReadme`: apply each replacement globally,
in order, to the template text. -/
def renderTemplate (config : ExampleConfig) (tmpl : String) : String :=
  (replacements config).foldl (fun acc kv => replaceAllS kv.1 kv.2 acc) tmpl

/-- The README text `generateReadme` writes for `config`. -/
def renderedReadme (config : ExampleConfig) : String :=
  renderTemplate config README_TEMPLATE

/-! ## `createExample` -/

/-- Resolved path constants.  The scripts live in one directory of the repo
(`__dirname`); `path.join(__dirname, '../templates/hardhat-base')` and
`path.join(__dirname, '../examples')` resolve to fixed absolute paths under
the repository root, and `process.cwd()` is a fixed absolute path. -/
def TEMPLATE_DIR : JPath := ⟨true, ["repo", "templates", "hardhat-base"]⟩

/-- Model of `path.join(__dirname, '../templates/hardhat-base/README.template.md')`. -/
def TPL_README_PATH : JPath := joinP TEMPLATE_DIR "README.template.md"

/-- The template's `package.json` path. -/
def TPL_PKG_PATH : JPath := joinP TEMPLATE_DIR "package.json"

/-- Model of `path.join(__dirname, '../examples')`. -/
def EXAMPLES_ROOT : JPath := ⟨true, ["repo", "examples"]⟩

/-- Model of `process.cwd()` (always absolute). -/
def CWD : JPath := ⟨true, ["cwd"]⟩

/-- The source path of an example's contract file. -/
def contractSrcP (config : ExampleConfig) : JPath :=
  extendP EXAMPLES_ROOT [config.name, "contracts", config.contractFile]

/-- The source path of an example's test file. -/
def testSrcP (config : ExampleConfig) : JPath :=
  extendP EXAMPLES_ROOT [config.name, "test", config.testFile]

/-- Outcome of a generator invocation: success with the returned path, the
fatal unknown-id exit (which prints the list of valid ids as guidance), a
fatal uncaught I/O error, or the uncaught `TypeError` thrown by `path.join`
when it receives `undefined` — the fate of a run whose id named an inherited
`Object.prototype` member, which is truthy but has no `contractFile`. -/
inductive GenResult where
  | ok (path : JPath)
  | exitUnknown (validIds : List String)
  | ioError
  | typeError
deriving DecidableEq, Repr

/-- Model of `generateReadme(config, destPath)`: read the base README template, apply
all placeholder substitutions, write the result to `destPath`.  `none` when
the template file is missing (fatal I/O error). -/
def generateReadme (config : ExampleConfig) (w : World) (destPath : JPath) : Option World :=
  match readFile w TPL_README_PATH with
  | none => none
  | some tmpl => some (writeFile w destPath (renderTemplate config tmpl))

/-- The field rewrite of `updatePackageJson` on the parsed manifest object:
`packageJson.name = 'fhevm-example-<id>'; packageJson.description = <desc>`. -/
def updateObj (config : ExampleConfig) (fs : List (String × JVal)) : List (String × JVal) :=
  setFieldJS (setFieldJS fs "name" (.jstr ("fhevm-example-" ++ config.name)))
    "description" (.jstr config.description)

/-- Model of `updatePackageJson(config, destPath)`: read and parse the destination
manifest, rewrite `name` and `description`, and write it back with
`JSON.stringify(packageJson, null, 2)`.  `none` when the manifest is missing,
unparsable, or not an object (fatal errors under strict mode). -/
def updatePackageJson (config : ExampleConfig) (w : World) (destPath : JPath) : Option World :=
  let pkgPath := joinP destPath "package.json"
  match readFile w pkgPath with
  | none => none
  | some s =>
    match parseJson s with
    | some (.jobj fields) =>
      some (writeFile w pkgPath (stringify2 (.jobj (updateObj config fields))))
    | _ => none

/-- Model of `createExample(exampleName, outputDir?)`: look up
`EXAMPLES[exampleName]` — only `undefined` (id neither a registry key nor an
`Object.prototype` member) fails the `if (!config)` guard, producing the
fatal exit with the list of valid ids before any filesystem effect.  For an
inherited prototype member the guard passes: the base template is cloned to
`outputDir/example-${config.name}` (using the inherited value's `.name`
interpolation), and the run then dies with the uncaught `TypeError` from
`path.join(..., config.contractFile)` on the `undefined` field — after the
clone's writes.  For a registry key: clone the base template to
`outputDir/example-<id>`, overlay the contract and test files when their
sources exist (warn-and-continue otherwise), render the README, and rewrite
the manifest.  Returns the destination path on success. -/
def createExample (w : World) (exampleName : String) (outputDir : Option JPath) :
    World × GenResult :=
  match jsIndex exampleName with
  | .undefined => (w, .exitUnknown (EXAMPLES.map (·.1)))
  | .inherited nm =>
    let baseDir := outputDir.getD (joinP CWD "generated-examples")
    let exampleDir := joinP baseDir ("example-" ++ nm)
    match copyDirectory w TEMPLATE_DIR exampleDir with
    | none => (w, .ioError)
    | some w1 => (w1, .typeError)
  | .own config =>
    let baseDir := outputDir.getD (joinP CWD "generated-examples")
    let exampleDir := joinP baseDir ("example-" ++ config.name)
    match copyDirectory w TEMPLATE_DIR exampleDir with
    | none => (w, .ioError)
    | some w1 =>
      let w2 := match readFile w1 (contractSrcP config) with
        | some content => writeFile w1 (extendP exampleDir ["contracts", config.contractFile]) content
        | none => w1
      let w3 := match readFile w2 (testSrcP config) with
        | some content => writeFile w2 (extendP exampleDir ["test", config.testFile]) content
        | none => w2
      match generateReadme config w3 (joinP exampleDir "README.md") with
      | none => (w3, .ioError)
      | some w4 =>
        match updatePackageJson config w4 exampleDir with
        | none => (w4, .ioError)
        | some w5 => (w5, .ok exampleDir)

/-! ## `createCategory` -/

/-- One entry of the `exampleLinks` list of `generateCategoryReadme`: the
empty string when the member id does not resolve in `EXAMPLES` (silent skip),
otherwise the link block for the example. -/
def exampleLink (exName : String) : String :=
  match lookupEx exName with
  | none => ""
  | some exConfig =>
    "### [" ++ exConfig.title ++ "](./example-" ++ exName ++ "/)\n\n**Difficulty**: " ++
    capFirst exConfig.difficulty ++ "\n\n" ++ exConfig.description ++ "\n\n**Learn**:\n" ++
    String.intercalate "\n" (exConfig.learningObjectives.map (fun obj => "- " ++ obj)) ++
    "\n\n[View Example →](./example-" ++ exName ++ "/)\n\n---\n"

/-- The per-member link list of the category README, in declared member
order (`config.examples.map(...)`, before `.join('\n')`). -/
def exampleLinksList (config : CategoryConfig) : List String :=
  config.examples.map exampleLink

/-- The numbered learning-path list:
`config.examples.map((ex, idx) => ...).join('\n')`; `EXAMPLES[ex]?.title || ex`
falls back to the raw id when the member does not resolve (or has an empty
title, `||` being falsiness-based). -/
def learnPathList (config : CategoryConfig) : String :=
  String.intercalate "\n" (config.examples.enum.map (fun q =>
    toString (q.1 + 1) ++ ". " ++
      (match lookupEx q.2 with
       | some c => if c.title = "" then q.2 else c.title
       | none => q.2)))

/-- The difficulty-keyed learning-path sentence (three fixed branches). -/
def learnPathText (difficulty : String) : String :=
  if difficulty = "Beginner" then "Start here if you\x27re new to FHEVM!"
  else if difficulty = "Mixed" then "Follow the examples in order for best learning experience."
  else "Prerequisites: Complete basics category first."

/-- The difficulty-keyed next-steps text (three fixed branches). -/
def nextStepsText (difficulty : String) : String :=
  if difficulty = "Beginner" then
    "- Intermediate: Decryption Patterns\n- Advanced: Complex FHEVM Patterns"
  else if difficulty = "Intermediate" then
    "- Advanced: Complex FHEVM Patterns\n- Lending: Complete Application"
  else "- Build your own privacy-preserving application!\n- Contribute examples back to the community"

/-- The full content written by `generateCategoryReadme(config, destPath)`. -/
def categoryReadme (config : CategoryConfig) : String :=
  "# " ++ config.title ++ "\n\n**" ++ config.description ++ "**\n\n## Overview\n\n" ++
  config.overview ++ "\n\n## Examples in This Category\n\n" ++
  String.intercalate "\n" (exampleLinksList config) ++
  "\n\n## Getting Started\n\nEach example is a standalone Hardhat project:\n\n```bash\n# Navigate to an example\ncd example-access-control\n\n# Install dependencies\nnpm install\n\n# Run tests\nnpm test\n\n# Compile contracts\nnpm run compile\n```\n\n## Learning Path\n\n" ++
  learnPathText config.difficulty ++ "\n\n" ++ learnPathList config ++
  "\n\n## Real-World Application\n\nThese examples are extracted from a production **Privacy-Preserving Lending Platform**:\n\n- 🔒 **Complete Privacy**: All loan amounts encrypted\n- 💰 **Peer-to-Peer**: Direct lending without intermediaries\n- 🛡️ **Access Control**: Granular permissions for encrypted data\n- 📊 **Credit Scoring**: Private risk assessment\n\n[View Full Platform →](https://github.com/GeovanniParker/PrivacyLending)\n\n## Resources\n\n- [Zama fhEVM Documentation](https://docs.zama.ai/fhevm)\n- [FHEVM Examples Hub](../)\n- [Privacy Lending Demo Video](../../PrivacyLending/PrivacyLending.mp4)\n\n## Next Steps\n\nAfter completing this category, explore:\n\n" ++
  nextStepsText config.difficulty ++ "\n\n---\n\n**Chapter**: " ++ config.name ++
  "\n\n**Difficulty**: " ++ config.difficulty ++ "\n"

/-- The `config.examples.forEach` loop of `createCategory`: generate each
member example into the shared category directory, sequentially; a fatal
outcome inside `createExample` terminates the process, leaving earlier
examples generated and later ones absent. -/
def runExamples (dir : JPath) : World → List String → World × Option GenResult
  | w, [] => (w, none)
  | w, e :: rest =>
    match createExample w e (some dir) with
    | (w', .ok _) => runExamples dir w' rest
    | (w', r) => (w', some r)

/-- Model of `createCategory(categoryName, outputDir?)`: resolve the category id
(fatal exit with guidance when unknown), create `outputDir/category-<id>`,
generate every member example into it in declared order, then write the
category README. -/
def createCategory (w : World) (categoryName : String) (outputDir : Option JPath) :
    World × GenResult :=
  match lookupCat categoryName with
  | none => (w, .exitUnknown (CATEGORIES.map (·.1)))
  | some config =>
    let baseDir := outputDir.getD (joinP CWD "generated-categories")
    let categoryDir := joinP baseDir ("category-" ++ config.name)
    let w1 := if existsFS w categoryDir then w else mkdirRec w categoryDir
    match runExamples categoryDir w1 config.examples with
    | (w2, some r) => (w2, r)
    | (w2, none) => (writeFile w2 (joinP categoryDir "README.md") (categoryReadme config),
                     .ok categoryDir)

/-! ## The initial world -/

/-- Modelled from the spec: the base template's `package.json` is part of the
repository but its exact contents are not among the sources available here;
the spec (§6) describes it as "a structured key-value file (name,
description, plus arbitrary other fields)".  Any parsable object manifest
works for every theorem below. -/
def TEMPLATE_PKG : String :=
  "\x7b\n  \"name\": \"hardhat-base\",\n  \"description\": \"Base Hardhat template\",\n  \"version\": \"1.0.0\"\n\x7d"

/-- The initial filesystem for the concrete runs: the base-template directory
containing the (actual) README template and the (spec-modelled) manifest.
Example source overlays are absent — their absence is the documented
warn-and-continue path and no claim below depends on their contents. -/
def repoWorld : World :=
  { files := [(TPL_README_PATH, README_TEMPLATE), (TPL_PKG_PATH, TEMPLATE_PKG)],
    dirs := [TEMPLATE_DIR] }

/-! ## `extractDocumentation` (`generate-docs.ts`)

The extractor runs
`/\*\*([\s\S]*?)\*\/\s*([\s\S]*?)(?=\/\*\*|$)/g`
over the file text: each match starts at a `/**`, group 1 is the (lazy)
comment text up to the first `*/`, then greedy `\s*`, then group 2 is the
(lazy) trailing text up to the next `/**` or end of input.  A `/**` opener
with no later `*/` can never complete a match, so the scan ends there. -/

/-- Model of `['/', '*', '*']`, the block opener. -/
def openTok : List Char := ['/', '*', '*']

/-- Model of `['*', '/']`, the block closer. -/
def closeTok : List Char := ['*', '/']

/-- A successful `splitFirst` accounts for the whole input length (used for
termination of the extraction scan). -/
theorem splitFirst_some_length {pat s a b : List Char}
    (h : splitFirst pat s = some (a, b)) :
    s.length = a.length + pat.length + b.length := by
  induction s generalizing a b with
  | nil =>
    simp only [splitFirst] at h
    split at h
    · rename_i hp
      have hpe : pat = [] := List.prefix_nil.mp (List.isPrefixOf_iff_prefix.mp hp)
      cases h
      simp [hpe]
    · cases h
  | cons c rest ih =>
    simp only [splitFirst] at h
    split at h
    · rename_i hp
      have hle : pat.length ≤ rest.length + 1 := by
        simpa using (List.isPrefixOf_iff_prefix.mp hp).length_le
      cases h
      simp only [List.length_nil, List.length_drop, List.length_cons]
      omega
    · rcases hsp : splitFirst pat rest with _ | ⟨a2, b2⟩
      · rw [hsp] at h
        cases h
      · rw [hsp] at h
        simp only [Option.map_some'] at h
        cases h
        have := ih hsp
        simp only [List.length_cons]
        omega

/-- The regex loop after an opener has been consumed: `r` is the text
following `/**`.  Returns the (group 1, group 2) pairs of all matches. -/
def afterOpen (r : List Char) : List (List Char × List Char) :=
  match h1 : splitFirst closeTok r with
  | none => []
  | some (comment, r2) =>
    let w := r2.dropWhile jsWs
    match h2 : splitFirst openTok w with
    | none => [(comment, w)]
    | some (code, rest) => (comment, code) :: afterOpen rest
termination_by r.length
decreasing_by
  have e1 := splitFirst_some_length h1
  have e2 := splitFirst_some_length h2
  have e3 : w.length ≤ r2.length := (List.dropWhile_sublist jsWs).length_le
  simp [closeTok] at e1
  simp [openTok] at e2
  omega

/-- All (comment, trailing text) pairs matched by the extraction regex. -/
def extractBlocks (s : List Char) : List (List Char × List Char) :=
  match splitFirst openTok s with
  | none => []
  | some (_, r) => afterOpen r

/-- The largest index of a non-line-terminator character. -/
def lastNonTermIdx : List Char → Option Nat
  | [] => none
  | c :: rest =>
    match lastNonTermIdx rest with
    | some i => some (i + 1)
    | none => if lineTerm c then none else some 0

/-- End-of-input backtracking of `tryTagAt`: among the whitespace characters
the engine may give back to `(.+)` (all but the first, which `\s+` must
keep), pick the latest non-terminator one; the capture runs from it to the
next terminator. -/
def btCapture (m : List Char) : Option (List Char) :=
  match lastNonTermIdx m with
  | none => none
  | some i => some ((m.drop i).takeWhile (fun ch => !lineTerm ch))

/-- Try to match `tag ++ \s+ ++ (.+)` at the head of `s`, returning the
group 1 capture.  `\s+` munches greedily; `(.+)` needs one non-terminator
character, so at end of input the engine backtracks `\s+` down to the largest
amount leaving a non-terminator whitespace character for `(.+)`. -/
def tryTagAt (tag : List Char) (s : List Char) : Option (List Char) :=
  if tag.isPrefixOf s then
    let rest := s.drop (listLen 0 tag)
    let m := rest.takeWhile jsWs
    if m.length = 0 then none
    else
      match rest.drop m.length with
      | c :: cs => some ((c :: cs).takeWhile (fun ch => !lineTerm ch))
      | [] => btCapture (m.drop 1)
  else none

/-- First match of `tag\s+(.+)` anywhere in `s` (the regex engine scans the
candidate start positions left to right): the raw group 1 capture. -/
def matchMeta (tag : List Char) : List Char → Option (List Char)
  | [] => none
  | c :: rest =>
    match tryTagAt tag (c :: rest) with
    | some cap => some cap
    | none => matchMeta tag rest

/-- Model of `comment.replace(/@\w+\s+.*/g, '')`: drop every `@`-word marker together
with the whitespace after it and the rest of that line. -/
def stripMeta : Nat → List Char → List Char
  | 0, s => s
  | _ + 1, [] => []
  | f + 1, c :: rest =>
    if c = '@' then
      let w := rest.takeWhile (fun ch => ch.isAlphanum || ch = '_')
      if w.length = 0 then c :: stripMeta f rest
      else
        let r2 := rest.drop w.length
        let ws := r2.takeWhile jsWs
        if ws.length = 0 then c :: stripMeta f rest
        else
          let r3 := r2.drop ws.length
          stripMeta f (r3.drop ((r3.takeWhile (fun ch => !lineTerm ch)).length))
    else c :: stripMeta f rest

/-- An extracted documentation section. -/
structure DocSection where
  title : String
  content : String
  code : Option String
  chapter : String
deriving DecidableEq, Repr

/-- The `code` attached to a section:
`match[2].trim().split('\n').slice(0, 20).join('\n')`, attached only when
non-empty. -/
def codeOf (afterText : List Char) : Option String :=
  let t : String := ⟨trimL afterText⟩
  let code := String.intercalate "\n" ((t.splitOn "\n").take 20)
  if code.length > 0 then some code else none

/-- Turn one regex match into a `DocSection`: no `@title` marker means the
block is dropped; a missing `@chapter` marker falls back to `'general'`. -/
def sectionOfBlock (b : List Char × List Char) : Option DocSection :=
  match matchMeta "@title".data b.1 with
  | none => none
  | some cap =>
    some { title := ⟨trimL cap⟩,
           content := ⟨trimL (stripMeta (listLen 0 b.1) b.1)⟩,
           code := codeOf b.2,
           chapter := match matchMeta "@chapter".data b.1 with
                      | some cc => ⟨trimL cc⟩
                      | none => "general" }

/-- Model of `extractDocumentation` on file *text*: all sections of all comment blocks
that carry a title marker, in order.  (The script's function takes a path and
returns `[]` for a missing file; see `extractDocFile`.) -/
def extractDocumentation (s : String) : List DocSection :=
  (extractBlocks s.data).filterMap sectionOfBlock

/-- The path-level `extractDocumentation(testFilePath)`: missing file ⇒
empty sequence, not an error. -/
def extractDocFile (w : World) (p : JPath) : List DocSection :=
  match readFile w p with
  | none => []
  | some s => extractDocumentation s

/-- Specification-side instrumentation (not part of the script): does the
scan end with a dangling opener, i.e. a `/**` whose `*/` never comes?  Same
recursion structure as `afterOpen`. -/
def noDanglingAfter (r : List Char) : Bool :=
  match h1 : splitFirst closeTok r with
  | none => false
  | some (_, r2) =>
    let w := r2.dropWhile jsWs
    match h2 : splitFirst openTok w with
    | none => true
    | some (_, rest) => noDanglingAfter rest
termination_by r.length
decreasing_by
  have e1 := splitFirst_some_length h1
  have e2 := splitFirst_some_length h2
  have e3 : w.length ≤ r2.length := (List.dropWhile_sublist jsWs).length_le
  simp [closeTok] at e1
  simp [openTok] at e2
  omega

/-- Every `/**` opener in `s` is eventually closed by a `*/`. -/
def noDangling (s : List Char) : Bool :=
  match splitFirst openTok s with
  | none => true
  | some (_, r) => noDanglingAfter r

/-! ## Remaining specification-side definitions -/

/-- Is `p` an immediate subdirectory path of `parent`? -/
def isChildDir (parent p : JPath) : Bool :=
  p.absolute == parent.absolute && p.segs.dropLast == parent.segs && !p.segs.isEmpty

/-- The names of the immediate subdirectories of `parent` that exist in `w`,
in creation order (`w.dirs` is reverse-chronological). -/
def childDirNames (w : World) (parent : JPath) : List String :=
  ((w.dirs.filter (isChildDir parent)).reverse).map (fun p => p.segs.getLastD "")

/-- Field lookup on a (parsed) JSON object. -/
def objLookup (k : String) (m : List (String × JVal)) : Option JVal :=
  (m.find? (fun e => e.1 = k)).map (·.2)

/-- The one heavyweight computation of this file: for every registry entry,
the fully rendered README contains no occurrence of `{{` at all.  Since every
placeholder key starts with `{{`, this implies that no key survives. -/
def c1Check : Bool :=
  EXAMPLES.all (fun p => !occursS "\x7b\x7b" (renderedReadme p.2))

/-- The parsed field list of the (spec-modelled) template manifest. -/
def templatePkgFields : List (String × JVal) :=
  [("name", .jstr "hardhat-base"), ("description", .jstr "Base Hardhat template"),
   ("version", .jstr "1.0.0")]

/-- The manifest contents `createExample` writes when the destination
manifest was the template one. -/
def pkgOut (c : ExampleConfig) : String :=
  stringify2 (.jobj (updateObj c templatePkgFields))

/-- The first registry entry's config (`access-control`), used by concrete
witnesses. -/
def cfgAC : ExampleConfig :=
  ((EXAMPLES.head?).map (·.2)).getD ⟨"", "", "", "", [], [], "", "", "", "", ""⟩

/-- The first category entry's config (`basics`), used by concrete
witnesses. -/
def catBasics : CategoryConfig :=
  ((CATEGORIES.head?).map (·.2)).getD ⟨"", "", "", [], "", ""⟩

/-! ## Claim C3: the unknown-id guard, and the prototype-chain hole in it -/

set_option maxRecDepth 40000 in
/-- Counterexample to C3 as stated: `"toString"` is not a key of `EXAMPLES`,
yet `EXAMPLES['toString']` is the inherited (truthy)
`Object.prototype.toString`, so `if (!config)` does not fire: the run does
not take the unknown-id exit, it creates the destination directory
`out3/example-toString` (with the template copied into it) and then dies
with the `TypeError` from `path.join` on the undefined `contractFile` — a
filesystem write for an unknown id, which the claim denies. -/
theorem C3_counterexample :
    lookupEx "toString" = none
    ∧ (createExample repoWorld "toString" (some ⟨true, ["out3"]⟩)).2
        ≠ .exitUnknown (EXAMPLES.map (·.1))
    ∧ (createExample repoWorld "toString" (some ⟨true, ["out3"]⟩)).1 ≠ repoWorld
    ∧ (⟨true, ["out3", "example-toString"]⟩ : JPath)
        ∈ (createExample repoWorld "toString" (some ⟨true, ["out3"]⟩)).1.dirs :=
  ⟨by decide, by decide, by decide, by decide⟩

/-- C3 (amended): `createExample` terminates fatally with the guidance
listing of valid ids before performing any filesystem write — the world
comes back exactly unchanged — for every input id that is neither a key of
`EXAMPLES` nor the name of an inherited `Object.prototype` member.  For an
id naming a prototype member the guard does not fire: whenever the template
directory is present the run clones it into the destination directory
`example-${config.name}` (a filesystem write for an id outside the
registry) and then aborts with the uncaught `TypeError`, not with the
unknown-id exit. -/
theorem C3_unknown_id_effects (w : World) (id : String) (d : Option JPath)
    (h : lookupEx id = none) :
    (protoName id = none →
      createExample w id d = (w, .exitUnknown (EXAMPLES.map (·.1))))
    ∧ (∀ nm, protoName id = some nm →
        ∀ w1, copyDirectory w TEMPLATE_DIR
            (joinP (d.getD (joinP CWD "generated-examples")) ("example-" ++ nm))
          = some w1 →
        createExample w id d = (w1, .typeError)) := by
  constructor
  · intro hp
    unfold createExample jsIndex
    rw [h, hp]
  · intro nm hp w1 hc
    unfold createExample jsIndex
    rw [h, hp]
    simp only []
    rw [hc]

set_option maxRecDepth 40000 in
/-- Witness for the amended C3: the truly unknown id `"nope"` takes the
no-write exit, and the prototype id `"toString"` ends in the `TypeError`
instead. -/
theorem C3_unknown_id_effects_witness :
    createExample repoWorld "nope" none = (repoWorld, .exitUnknown (EXAMPLES.map (·.1)))
    ∧ (createExample repoWorld "toString" (some ⟨true, ["out3"]⟩)).2 = GenResult.typeError :=
  ⟨(C3_unknown_id_effects repoWorld "nope" none (by decide)).1 (by decide),
   congrArg Prod.snd
     ((C3_unknown_id_effects repoWorld "toString" (some ⟨true, ["out3"]⟩)
        (by decide)).2 "toString" (by decide) _ rfl)⟩

/-! ## Claim C10: static registry coherence -/

/-- C10: in the shipped static data, every member id of every category
resolves in `EXAMPLES`, and every registry entry's `name` field equals its
key — so category generation and README link rendering never meet an
unresolvable member with this data. -/
theorem C10_registry_coherent :
    (∀ p ∈ CATEGORIES, ∀ e ∈ p.2.examples, (lookupEx e).isSome = true)
    ∧ (∀ p ∈ EXAMPLES, p.2.name = p.1)
    ∧ (∀ p ∈ CATEGORIES, p.2.name = p.1) := by
  refine ⟨?_, ?_, ?_⟩ <;> decide

/-! ## Claim C8: the manifest rewrite is a frame-preserving two-field update -/

/-- Fact: `setFieldJS` writes the field it sets. -/
theorem objLookup_setField_self (m : List (String × JVal)) (k : String) (v : JVal) :
    objLookup k (setFieldJS m k v) = some v := by
  unfold setFieldJS objLookup
  split
  · rename_i hany
    induction m with
    | nil => simp at hany
    | cons e rest ih =>
      by_cases he : e.1 = k
      · simp [he]
      · simp only [List.map_cons, if_neg he]
        rw [List.find?_cons_of_neg _ (by simpa using he)]
        apply ih
        simpa [List.any_cons, he] using hany
  · induction m with
    | nil => simp
    | cons e rest ih =>
      rename_i hany
      have he : ¬(e.1 = k) := by
        intro hk
        exact hany (by simp [List.any_cons, hk])
      simp only [List.cons_append]
      rw [List.find?_cons_of_neg _ (by simpa using he)]
      exact ih (fun hr => hany (by simp [List.any_cons]; right; simpa using hr))

/-- Fact: `setFieldJS` leaves every other field's value alone. -/
theorem objLookup_setField_other (m : List (String × JVal)) (k k' : String) (v : JVal)
    (h : k' ≠ k) :
    objLookup k' (setFieldJS m k v) = objLookup k' m := by
  unfold setFieldJS objLookup
  split
  · rename_i hany
    clear hany
    induction m with
    | nil => simp
    | cons e rest ih =>
      by_cases he : e.1 = k
      · simp only [List.map_cons, if_pos he]
        rw [List.find?_cons_of_neg _ (by simpa using h.symm)]
        rw [List.find?_cons_of_neg _ (by simp [he]; exact fun hk => (h (hk ▸ he.symm ▸ rfl)).elim)]
        exact ih
      · simp only [List.map_cons, if_neg he]
        by_cases he' : e.1 = k'
        · rw [List.find?_cons_of_pos _ (by simpa using he'),
              List.find?_cons_of_pos _ (by simpa using he')]
        · rw [List.find?_cons_of_neg _ (by simpa using he'),
              List.find?_cons_of_neg _ (by simpa using he')]
          exact ih
  · rw [List.find?_append]
    have : List.find? (fun e => decide (e.1 = k')) [(k, v)] = none := by
      simp [h.symm]
    cases hf : List.find? (fun e => decide (e.1 = k')) m <;> simp [this, hf]

/-- Fact: `setFieldJS` keeps the key sequence when the key is already present. -/
theorem keys_setField_mem (m : List (String × JVal)) (k : String) (v : JVal)
    (h : k ∈ m.map Prod.fst) :
    (setFieldJS m k v).map Prod.fst = m.map Prod.fst := by
  unfold setFieldJS
  have hany : m.any (fun e => decide (e.1 = k)) = true := by
    rcases List.mem_map.mp h with ⟨e, he, hk⟩
    exact List.any_eq_true.mpr ⟨e, he, by simp [hk]⟩
  rw [if_pos hany, List.map_map]
  apply List.map_congr_left
  intro e _
  by_cases he : e.1 = k
  · simp [he]
  · simp [he]

/-- C8: `updatePackageJson` rewrites the parsed manifest so that `name`
becomes `fhevm-example-<id>` and `description` becomes the descriptor's
description, while every other field keeps its prior value, and the key
order is preserved whenever both fields were already present (a manifest
always has them; a missing one is appended, which is all the serialisation
can do). -/
theorem C8_manifest_update_frame (c : ExampleConfig) (m : List (String × JVal)) :
    objLookup "name" (updateObj c m) = some (.jstr ("fhevm-example-" ++ c.name))
    ∧ objLookup "description" (updateObj c m) = some (.jstr c.description)
    ∧ (∀ k, k ≠ "name" → k ≠ "description" →
        objLookup k (updateObj c m) = objLookup k m)
    ∧ ("name" ∈ m.map Prod.fst → "description" ∈ m.map Prod.fst →
        (updateObj c m).map Prod.fst = m.map Prod.fst) := by
  unfold updateObj
  refine ⟨?_, ?_, ?_, ?_⟩
  · rw [objLookup_setField_other _ _ _ _ (by decide)]
    exact objLookup_setField_self ..
  · exact objLookup_setField_self ..
  · intro k hk1 hk2
    rw [objLookup_setField_other _ _ _ _ hk2, objLookup_setField_other _ _ _ _ hk1]
  · intro h1 h2
    rw [keys_setField_mem, keys_setField_mem]
    · exact h1
    · rw [keys_setField_mem _ _ _ h1]
      exact h2

/-- Witness for C8 at a concrete manifest. -/
theorem C8_manifest_update_frame_witness :
    (objLookup "name" (updateObj ⟨"x", "", "d", "", [], [], "", "beginner", "", "", ""⟩
        templatePkgFields) = some (.jstr "fhevm-example-x"))
    ∧ objLookup "version" (updateObj ⟨"x", "", "d", "", [], [], "", "beginner", "", "", ""⟩
        templatePkgFields) = objLookup "version" templatePkgFields := by
  refine ⟨(C8_manifest_update_frame _ templatePkgFields).1, ?_⟩
  exact (C8_manifest_update_frame _ templatePkgFields).2.2.1 "version" (by decide) (by decide)


/-! ## Unfolding lemmas for the extraction scan -/

/-- Fact: `afterOpen` when no closer follows: the dangling opener never completes a
match. -/
theorem afterOpen_none {r : List Char} (hc : splitFirst closeTok r = none) :
    afterOpen r = [] := by
  rw [afterOpen.eq_def]
  split
  · rfl
  · rename_i comment r2 heq
    rw [hc] at heq
    cases heq

/-- Fact: `afterOpen` on the final block: closer found, no further opener. -/
theorem afterOpen_last {r comment r2 : List Char}
    (hc : splitFirst closeTok r = some (comment, r2))
    (ho : splitFirst openTok (r2.dropWhile jsWs) = none) :
    afterOpen r = [(comment, r2.dropWhile jsWs)] := by
  rw [afterOpen.eq_def]
  split
  · rename_i heq
    rw [hc] at heq
    cases heq
  · rename_i comment' r2' heq
    rw [hc] at heq
    injection heq with heq'
    injection heq' with e1 e2
    subst e1; subst e2
    simp only []
    split
    · rfl
    · rename_i code rest heq2
      rw [ho] at heq2
      cases heq2

/-- Fact: `afterOpen` on an inner block: closer found, a further opener follows. -/
theorem afterOpen_step {r comment r2 code rest : List Char}
    (hc : splitFirst closeTok r = some (comment, r2))
    (ho : splitFirst openTok (r2.dropWhile jsWs) = some (code, rest)) :
    afterOpen r = (comment, code) :: afterOpen rest := by
  rw [afterOpen.eq_def]
  split
  · rename_i heq
    rw [hc] at heq
    cases heq
  · rename_i comment' r2' heq
    rw [hc] at heq
    injection heq with heq'
    injection heq' with e1 e2
    subst e1; subst e2
    simp only []
    split
    · rename_i heq2
      rw [ho] at heq2
      cases heq2
    · rename_i code' rest' heq2
      rw [ho] at heq2
      injection heq2 with heq3
      injection heq3 with f1 f2
      subst f1; subst f2
      rfl

/-- Fact: `noDanglingAfter` when no closer follows. -/
theorem noDanglingAfter_none {r : List Char} (hc : splitFirst closeTok r = none) :
    noDanglingAfter r = false := by
  rw [noDanglingAfter.eq_def]
  split
  · rfl
  · rename_i comment r2 heq
    rw [hc] at heq
    cases heq

/-- Fact: `noDanglingAfter` on the final block. -/
theorem noDanglingAfter_last {r comment r2 : List Char}
    (hc : splitFirst closeTok r = some (comment, r2))
    (ho : splitFirst openTok (r2.dropWhile jsWs) = none) :
    noDanglingAfter r = true := by
  rw [noDanglingAfter.eq_def]
  split
  · rename_i heq
    rw [hc] at heq
    cases heq
  · rename_i comment' r2' heq
    rw [hc] at heq
    injection heq with heq'
    injection heq' with e1 e2
    subst e1; subst e2
    simp only []
    split
    · rfl
    · rename_i code rest heq2
      rw [ho] at heq2
      cases heq2

/-- Fact: `noDanglingAfter` on an inner block. -/
theorem noDanglingAfter_step {r comment r2 code rest : List Char}
    (hc : splitFirst closeTok r = some (comment, r2))
    (ho : splitFirst openTok (r2.dropWhile jsWs) = some (code, rest)) :
    noDanglingAfter r = noDanglingAfter rest := by
  rw [noDanglingAfter.eq_def]
  split
  · rename_i heq
    rw [hc] at heq
    cases heq
  · rename_i comment' r2' heq
    rw [hc] at heq
    injection heq with heq'
    injection heq' with e1 e2
    subst e1; subst e2
    simp only []
    split
    · rename_i heq2
      rw [ho] at heq2
      cases heq2
    · rename_i code' rest' heq2
      rw [ho] at heq2
      injection heq2 with heq3
      injection heq3 with f1 f2
      subst f1; subst f2
      rfl

/-! ## Claim C4: one well-formed block with a title and no chapter marker -/

/-- C4: for every test-file text containing exactly one well-formed comment
block (an opener, a closer, and no further opener afterwards) whose title
marker carries the title `"Foo"` and which has no chapter marker,
`extractDocumentation` returns exactly one `DocSection`, with title `"Foo"`
and the default chapter `'general'`. -/
theorem C4_single_block (s : String) (pre r1 comment r2 cap : List Char)
    (h1 : splitFirst openTok s.data = some (pre, r1))
    (h2 : splitFirst closeTok r1 = some (comment, r2))
    (h3 : splitFirst openTok (r2.dropWhile jsWs) = none)
    (h4 : matchMeta "@title".data comment = some cap)
    (h5 : (⟨trimL cap⟩ : String) = "Foo")
    (h6 : matchMeta "@chapter".data comment = none) :
    (extractDocumentation s).length = 1
    ∧ (extractDocumentation s).head?.map DocSection.title = some "Foo"
    ∧ (extractDocumentation s).head?.map DocSection.chapter = some "general" := by
  have hb : extractBlocks s.data = [(comment, r2.dropWhile jsWs)] := by
    unfold extractBlocks
    rw [h1]
    show afterOpen r1 = _
    exact afterOpen_last h2 h3
  have hs : extractDocumentation s =
      [{ title := "Foo", content := ⟨trimL (stripMeta (listLen 0 comment) comment)⟩,
         code := codeOf (r2.dropWhile jsWs), chapter := "general" }] := by
    unfold extractDocumentation
    rw [hb]
    simp only [List.filterMap_cons, List.filterMap_nil, sectionOfBlock, h4, h6, h5]
  rw [hs]
  exact ⟨rfl, rfl, rfl⟩

/-- Witness for C4 on a concrete one-block file. -/
theorem C4_single_block_witness :
    (extractDocumentation "/** @title Foo */\nconst a = 1;").length = 1
    ∧ (extractDocumentation "/** @title Foo */\nconst a = 1;").head?.map DocSection.title
        = some "Foo"
    ∧ (extractDocumentation "/** @title Foo */\nconst a = 1;").head?.map DocSection.chapter
        = some "general" :=
  C4_single_block "/** @title Foo */\nconst a = 1;"
    [] " @title Foo */\nconst a = 1;".data " @title Foo ".data "\nconst a = 1;".data
    "Foo ".data (by decide) (by decide) (by decide) (by decide) (by decide) (by decide)

/-! ## Append lemmas for the extraction scan (towards C5 and C6) -/

/-- A prefix test only looks at the first `pat.length` characters. -/
theorem isPrefixOf_append_left {pat : List Char} (u t : List Char)
    (h : pat.length ≤ u.length) :
    pat.isPrefixOf (u ++ t) = pat.isPrefixOf u := by
  induction pat generalizing u with
  | nil => simp [List.isPrefixOf]
  | cons p ps ih =>
    cases u with
    | nil => simp at h
    | cons x xs =>
      simp only [List.cons_append, List.isPrefixOf, List.append_eq]
      rw [ih xs (by simpa using Nat.le_of_succ_le_succ (by simpa using h))]

/-- Extending the input to the right does not move an existing first
occurrence. -/
theorem splitFirst_append {pat s t a b : List Char}
    (h : splitFirst pat s = some (a, b)) :
    splitFirst pat (s ++ t) = some (a, b ++ t) := by
  induction s generalizing a b with
  | nil =>
    simp only [splitFirst] at h
    split at h
    · rename_i hp
      have hpe : pat = [] := List.prefix_nil.mp (List.isPrefixOf_iff_prefix.mp hp)
      cases h
      subst hpe
      cases t with
      | nil => simp [splitFirst]
      | cons c cs => simp [splitFirst, List.isPrefixOf]
    · cases h
  | cons c rest ih =>
    simp only [splitFirst] at h
    split at h
    · rename_i hp
      cases h
      have hle : pat.length ≤ rest.length + 1 := by
        simpa using (List.isPrefixOf_iff_prefix.mp hp).length_le
      have hp2 : pat.isPrefixOf ((c :: rest) ++ t) = true := by
        rw [isPrefixOf_append_left (c :: rest) t (by simpa using hle)]
        exact hp
      simp only [List.cons_append] at hp2
      have hdrop : (c :: (rest ++ t)).drop pat.length
          = (c :: rest).drop pat.length ++ t := by
        have he : c :: (rest ++ t) = (c :: rest) ++ t := rfl
        rw [he, List.drop_append_eq_append_drop]
        have hz : pat.length - (c :: rest).length = 0 := by
          simp only [List.length_cons]
          omega
        rw [hz]
        simp
      simp only [List.cons_append, splitFirst, List.append_eq, hp2, if_true, hdrop]
    · rename_i hp
      rcases hsp : splitFirst pat rest with _ | ⟨a2, b2⟩
      · rw [hsp] at h
        cases h
      · rw [hsp] at h
        simp only [Option.map_some'] at h
        cases h
        have hlen : pat.length ≤ rest.length := by
          have := splitFirst_some_length hsp
          omega
        have hp2 : pat.isPrefixOf ((c :: rest) ++ t) = false := by
          rw [isPrefixOf_append_left (c :: rest) t (by simp; omega)]
          simp only [Bool.not_eq_true] at hp
          exact hp
        simp only [List.cons_append] at hp2
        simp only [List.cons_append, splitFirst, List.append_eq, hp2, if_false,
          Bool.false_eq_true]
        rw [ih hsp]
        rfl

/-- Inserting `/**` right after an opener-free text puts the first opener
exactly at the junction: `/**`'s second and third characters cannot combine
with the end of `r` to form an earlier occurrence. -/
theorem splitFirst_insert_open {r u : List Char}
    (h : splitFirst openTok r = none) :
    splitFirst openTok (r ++ (openTok ++ u)) = some (r, u) := by
  induction r with
  | nil =>
    simp only [List.nil_append]
    show splitFirst openTok ('/' :: ('*' :: '*' :: u)) = some ([], u)
    simp [splitFirst, openTok, List.isPrefixOf]
  | cons c rest ih =>
    have hstep : openTok.isPrefixOf (c :: rest) = false ∧ splitFirst openTok rest = none := by
      by_cases hp : openTok.isPrefixOf (c :: rest) = true
      · exfalso
        simp only [splitFirst, hp, if_true] at h
        cases h
      · refine ⟨by simp only [Bool.not_eq_true] at hp; exact hp, ?_⟩
        simp only [splitFirst] at h
        rw [if_neg (by simpa using hp)] at h
        rcases hr : splitFirst openTok rest with _ | q
        · rfl
        · rw [hr] at h
          simp at h
    have hp2 : openTok.isPrefixOf ((c :: rest) ++ (openTok ++ u)) = false := by
      match rest with
      | [] => simp [openTok, List.isPrefixOf]
      | [x] => simp [openTok, List.isPrefixOf]
      | y :: z :: rest' =>
        rw [isPrefixOf_append_left (c :: y :: z :: rest') (openTok ++ u)
          (by simp [openTok])]
        exact hstep.1
    simp only [List.cons_append] at hp2
    simp only [List.cons_append, splitFirst, List.append_eq, hp2, if_false,
      Bool.false_eq_true]
    rw [ih hstep.2]
    rfl

/-- Inserting `*/` right after a closer-free text puts the first closer
exactly at the junction. -/
theorem splitFirst_insert_close {r u : List Char}
    (h : splitFirst closeTok r = none) :
    splitFirst closeTok (r ++ (closeTok ++ u)) = some (r, u) := by
  induction r with
  | nil =>
    simp only [List.nil_append]
    show splitFirst closeTok ('*' :: ('/' :: u)) = some ([], u)
    simp [splitFirst, closeTok, List.isPrefixOf]
  | cons c rest ih =>
    have hstep : closeTok.isPrefixOf (c :: rest) = false ∧ splitFirst closeTok rest = none := by
      by_cases hp : closeTok.isPrefixOf (c :: rest) = true
      · exfalso
        simp only [splitFirst, hp, if_true] at h
        cases h
      · refine ⟨by simp only [Bool.not_eq_true] at hp; exact hp, ?_⟩
        simp only [splitFirst] at h
        rw [if_neg (by simpa using hp)] at h
        rcases hr : splitFirst closeTok rest with _ | q
        · rfl
        · rw [hr] at h
          simp at h
    have hp2 : closeTok.isPrefixOf ((c :: rest) ++ (closeTok ++ u)) = false := by
      match rest with
      | [] => simp [closeTok, List.isPrefixOf]
      | y :: rest' =>
        rw [isPrefixOf_append_left (c :: y :: rest') (closeTok ++ u)
          (by simp [closeTok])]
        exact hstep.1
    simp only [List.cons_append] at hp2
    simp only [List.cons_append, splitFirst, List.append_eq, hp2, if_false,
      Bool.false_eq_true]
    rw [ih hstep.2]
    rfl

/-- Fact: `extractBlocks` with no opener. -/
theorem extractBlocks_none {s : List Char} (h : splitFirst openTok s = none) :
    extractBlocks s = [] := by
  unfold extractBlocks
  rw [h]

/-- Fact: `extractBlocks` with a first opener. -/
theorem extractBlocks_some {s p r : List Char} (h : splitFirst openTok s = some (p, r)) :
    extractBlocks s = afterOpen r := by
  unfold extractBlocks
  rw [h]

/-- Fact: `noDangling` with no opener. -/
theorem noDangling_none {s : List Char} (h : splitFirst openTok s = none) :
    noDangling s = true := by
  unfold noDangling
  rw [h]

/-- Fact: `noDangling` with a first opener. -/
theorem noDangling_some {s p r : List Char} (h : splitFirst openTok s = some (p, r)) :
    noDangling s = noDanglingAfter r := by
  unfold noDangling
  rw [h]

/-- Fact: `splitFirst` on the empty list for a non-trivial pattern. -/
theorem splitFirst_openTok_nil : splitFirst openTok ([] : List Char) = none := by
  simp [splitFirst, openTok, List.isPrefixOf]

/-- The scan of a well-scanned text followed by `/**` and more text: the
blocks of the original text come out unchanged (the last block's trailing
code ends where the inserted opener begins, exactly where end-of-input ended
it before), followed by the blocks of the rest. -/
theorem afterOpen_append (u : List Char) :
    ∀ n r, r.length ≤ n → noDanglingAfter r = true →
      afterOpen (r ++ (openTok ++ u)) = afterOpen r ++ afterOpen u := by
  intro n
  induction n with
  | zero =>
    intro r hlen hnd
    have hr : r = [] := List.length_eq_zero.mp (Nat.le_zero.mp hlen)
    subst hr
    rw [noDanglingAfter_none (by simp [splitFirst, closeTok, List.isPrefixOf])] at hnd
    cases hnd
  | succ n ih =>
    intro r hlen hnd
    rcases hc : splitFirst closeTok r with _ | ⟨comment, r2⟩
    · rw [noDanglingAfter_none hc] at hnd
      cases hnd
    · have hcA : splitFirst closeTok (r ++ (openTok ++ u))
          = some (comment, r2 ++ (openTok ++ u)) := splitFirst_append hc
      rcases hwe : r2.dropWhile jsWs with _ | ⟨wc, wrest⟩
      · -- everything after the closer is whitespace
        have hdw : (r2 ++ (openTok ++ u)).dropWhile jsWs = openTok ++ u := by
          rw [List.dropWhile_append, hwe]
          simp [openTok, List.dropWhile_cons, jsWs]
        have hoX : splitFirst openTok (openTok ++ u) = some ([], u) := by
          have := splitFirst_insert_open (r := []) (u := u) splitFirst_openTok_nil
          simpa using this
        have h1 : afterOpen r = [(comment, r2.dropWhile jsWs)] :=
          afterOpen_last hc (by rw [hwe]; exact splitFirst_openTok_nil)
        have h2 : afterOpen (r ++ (openTok ++ u)) = (comment, []) :: afterOpen u :=
          afterOpen_step hcA (by rw [hdw]; exact hoX)
        rw [h1, h2, hwe]
        rfl
      · have hwne : (r2.dropWhile jsWs).isEmpty = false := by
          rw [hwe]
          rfl
        have hdw : (r2 ++ (openTok ++ u)).dropWhile jsWs
            = r2.dropWhile jsWs ++ (openTok ++ u) := by
          rw [List.dropWhile_append, hwne]
          simp
        rcases ho : splitFirst openTok (r2.dropWhile jsWs) with _ | ⟨code, rest⟩
        · -- final block of `r`
          have h1 : afterOpen r = [(comment, r2.dropWhile jsWs)] := afterOpen_last hc ho
          have hoX : splitFirst openTok (r2.dropWhile jsWs ++ (openTok ++ u))
              = some (r2.dropWhile jsWs, u) := splitFirst_insert_open ho
          have h2 : afterOpen (r ++ (openTok ++ u))
              = (comment, r2.dropWhile jsWs) :: afterOpen u :=
            afterOpen_step hcA (by rw [hdw]; exact hoX)
          rw [h1, h2]
          rfl
        · -- inner block: recurse
          have hnd2 : noDanglingAfter rest = true := by
            rw [noDanglingAfter_step hc ho] at hnd
            exact hnd
          have hlen2 : rest.length ≤ n := by
            have e1 := splitFirst_some_length hc
            have e2 := splitFirst_some_length ho
            have e3 : (r2.dropWhile jsWs).length ≤ r2.length :=
              (List.dropWhile_sublist jsWs).length_le
            simp only [closeTok, List.length_cons, List.length_nil] at e1
            simp only [openTok, List.length_cons, List.length_nil] at e2
            omega
          have h1 : afterOpen r = (comment, code) :: afterOpen rest :=
            afterOpen_step hc ho
          have hoX : splitFirst openTok (r2.dropWhile jsWs ++ (openTok ++ u))
              = some (code, rest ++ (openTok ++ u)) := splitFirst_append ho
          have h2 : afterOpen (r ++ (openTok ++ u))
              = (comment, code) :: afterOpen (rest ++ (openTok ++ u)) :=
            afterOpen_step hcA (by rw [hdw]; exact hoX)
          rw [h1, h2, ih rest hlen2 hnd2]
          rfl

/-- Appending `/**` plus arbitrary text to a well-scanned text appends that
text's blocks, leaving the original blocks (and their trailing code)
untouched. -/
theorem extractBlocks_append {s u : List Char} (h : noDangling s = true) :
    extractBlocks (s ++ (openTok ++ u)) = extractBlocks s ++ afterOpen u := by
  rcases hs : splitFirst openTok s with _ | ⟨p, r⟩
  · rw [extractBlocks_none hs, extractBlocks_some (splitFirst_insert_open hs)]
    rfl
  · rw [noDangling_some hs] at h
    rw [extractBlocks_some hs,
        extractBlocks_some (splitFirst_append hs),
        afterOpen_append u r.length r (Nat.le_refl _) h]

/-- No occurrence is the same as a failing `splitFirst`. -/
theorem splitFirst_eq_none_of_occurs {pat s : List Char} (h : occursL pat s = false) :
    splitFirst pat s = none := by
  induction s with
  | nil =>
    simp only [occursL] at h
    simp [splitFirst, h]
  | cons c rest ih =>
    simp only [occursL, Bool.or_eq_false_iff] at h
    simp only [splitFirst, h.1, Bool.false_eq_true, if_false]
    rw [ih h.2]
    rfl

/-- Non-occurrence passes to the right part of an append. -/
theorem occurs_append_right {pat a b : List Char} (h : occursL pat (a ++ b) = false) :
    occursL pat b = false := by
  induction a with
  | nil => exact h
  | cons c rest ih =>
    simp only [List.cons_append, occursL, Bool.or_eq_false_iff] at h
    exact ih h.2

/-! ## Claim C5: a titleless block contributes no section -/

/-- C5: appending a comment block with no title marker (its text `c` free of
a closer, as inside any well-formed block) to any input whose openers are all
closed leaves the extracted sequence's length unchanged — the titleless
block is dropped even if it carries other metadata such as a chapter
marker. -/
theorem C5_titleless_block_adds_nothing (s c : String)
    (hnd : noDangling s.data = true)
    (ht : matchMeta "@title".data c.data = none)
    (hcl : occursL closeTok c.data = false) :
    (extractDocumentation (s ++ "/**" ++ c ++ "*/")).length
      = (extractDocumentation s).length := by
  have hdata : (s ++ "/**" ++ c ++ "*/").data
      = s.data ++ (openTok ++ (c.data ++ closeTok)) := by
    simp only [String.data_append, List.append_assoc]
    rfl
  unfold extractDocumentation
  rw [hdata, extractBlocks_append hnd, List.filterMap_append]
  have hsplit2 : splitFirst closeTok (c.data ++ closeTok) = some (c.data, []) := by
    have := splitFirst_insert_close (u := [])
      (splitFirst_eq_none_of_occurs hcl)
    simpa using this
  have hb : afterOpen (c.data ++ closeTok) = [(c.data, [])] :=
    afterOpen_last hsplit2 splitFirst_openTok_nil
  rw [hb]
  simp [sectionOfBlock, ht]

/-- Witness for C5: a block carrying only a `@chapter` marker is appended and
the count stays at one. -/
theorem C5_titleless_block_adds_nothing_witness :
    (extractDocumentation ("/** @title A */ x" ++ "/**" ++ " @chapter z " ++ "*/")).length
      = (extractDocumentation "/** @title A */ x").length :=
  C5_titleless_block_adds_nothing "/** @title A */ x" " @chapter z "
    (by
      rw [noDangling_some (p := []) (r := " @title A */ x".data) (by decide)]
      exact @noDanglingAfter_last " @title A */ x".data " @title A ".data " x".data
        (by decide) (by decide))
    (by decide) (by decide)

/-! ## Claim C6: a block with a missing closing marker -/

/-- Counterexample to C6 as stated: on an input consisting of one comment
block whose closing marker is missing but which carries a title marker, the
extractor returns the empty sequence — the block is *not* "treated as
extending to end-of-file and still processed" (that would produce the
`"Foo"` section); it never completes a regex match and is dropped. -/
theorem C6_counterexample : extractDocumentation "/** @title Foo" = [] := by
  unfold extractDocumentation
  rw [extractBlocks_some (p := []) (r := " @title Foo".data) (by decide),
      afterOpen_none (by decide)]
  rfl

/-- C6 (amended): the extractor never raises a parse error — it is a total
function by construction — and a block whose closing marker is missing is
dropped entirely: appending an opener followed by closer-free text to any
input whose openers are all closed leaves the extracted sequence exactly
unchanged (earlier blocks are still processed; the unclosed one contributes
nothing). -/
theorem C6_unclosed_block_dropped (s c : String)
    (hnd : noDangling s.data = true)
    (hcl : occursL closeTok ("/**" ++ c).data = false) :
    extractDocumentation (s ++ "/**" ++ c) = extractDocumentation s := by
  have hcl2 : occursL closeTok c.data = false := by
    have h1 : ("/**" ++ c).data = "/**".data ++ c.data := by
      simp [String.data_append]
    rw [h1] at hcl
    exact occurs_append_right hcl
  have hdata : (s ++ "/**" ++ c).data = s.data ++ (openTok ++ c.data) := by
    simp only [String.data_append, List.append_assoc]
    rfl
  unfold extractDocumentation
  rw [hdata, extractBlocks_append hnd,
      afterOpen_none (splitFirst_eq_none_of_occurs hcl2)]
  simp

/-- Witness for the amended C6. -/
theorem C6_unclosed_block_dropped_witness :
    extractDocumentation ("/** @title A */ x" ++ "/**" ++ " @title B never closed")
      = extractDocumentation "/** @title A */ x" :=
  C6_unclosed_block_dropped "/** @title A */ x" " @title B never closed"
    (by
      rw [noDangling_some (p := []) (r := " @title A */ x".data) (by decide)]
      exact @noDanglingAfter_last " @title A */ x".data " @title A ".data " x".data
        (by decide) (by decide))
    (by decide)

/-! ## Symbolic evaluation of a `createExample` run (towards C1, C7, C9) -/

/-- Two paths differ when one carries a segment the other lacks. -/
theorem jpath_ne_of_mem_not_mem {b1 b2 : Bool} {l1 l2 : List String} {x : String}
    (hx : x ∈ l1) (hn : x ∉ l2) : (⟨b1, l1⟩ : JPath) ≠ ⟨b2, l2⟩ := by
  intro h
  injection h with h1 h2
  exact hn (h2 ▸ hx)

/-- The example-directory marker segment sits in every path under the
example directory. -/
theorem mem_segs_under_exdir (base : JPath) (f : String) (rel : List String) :
    f ∈ (extendP (joinP base f) rel).segs := by
  simp [extendP, joinP]

/-- A path under the example directory never equals a fixed path free of the
marker segment. -/
theorem extend_exdir_ne (base : JPath) (f : String) (rel : List String) (t : JPath)
    (h : f ∉ t.segs) : extendP (joinP base f) rel ≠ t := by
  intro he
  exact h (he ▸ mem_segs_under_exdir base f rel)

/-- Fact: `joinP` is `extendP` with one segment. -/
theorem joinP_eq_extend (p : JPath) (s : String) : joinP p s = extendP p [s] := rfl

/-- Sibling files under the same directory differ exactly in the last
segment. -/
theorem joinP_inj (p : JPath) (s t : String) (h : s ≠ t) : joinP p s ≠ joinP p t := by
  intro he
  injection he with h1 h2
  rw [List.append_right_inj] at h2
  exact h (by injection h2)

/-- Fact: `readFile` through a prepended entry. -/
theorem readFile_cons_world (a : JPath × String) (fs : List (JPath × String))
    (ds : List JPath) (q : JPath) :
    readFile ⟨a :: fs, ds⟩ q = if a.1 = q then some a.2 else readFile ⟨fs, ds⟩ q := by
  unfold readFile
  by_cases h : a.1 = q
  · rw [List.find?_cons_of_pos _ (by simpa using h), if_pos h]
    rfl
  · rw [List.find?_cons_of_neg _ (by simpa using h), if_neg h]

/-- Fact: `mkdirRec` leaves the files alone. -/
theorem mkdirRec_files (w : World) (p : JPath) : (mkdirRec w p).files = w.files := rfl

/-- Fact: `mkdirRec` only adds directories. -/
theorem mkdirRec_dirs_mono (w : World) (p : JPath) {q : JPath} (h : q ∈ w.dirs) :
    q ∈ (mkdirRec w p).dirs := by
  unfold mkdirRec
  simp only [List.mem_append]
  right
  exact h

/-- The evaluation of `copyDirectory` when the source has no
subdirectories. -/
theorem copyDirectory_run {w : World} {src dest : JPath}
    (hdir : existsDir w src = true) (hdu : dirsUnder w src = []) :
    copyDirectory w src dest =
      some { files := (filesUnder w src).map (fun e => (extendP dest e.1, e.2))
               ++ (if existsFS w dest then w else mkdirRec w dest).files,
             dirs := (if existsFS w dest then w else mkdirRec w dest).dirs } := by
  unfold copyDirectory
  rw [hdir]
  simp only [if_true, hdu, List.foldl_nil]

/-- Fact: `generateReadme` with the template present. -/
theorem generateReadme_run {w : World} {dest : JPath} {c : ExampleConfig}
    (hR : readFile w TPL_README_PATH = some README_TEMPLATE) :
    generateReadme c w dest = some (writeFile w dest (renderedReadme c)) := by
  unfold generateReadme
  rw [hR]
  rfl

/-- Fact: `updatePackageJson` when the destination manifest is the template one. -/
theorem updatePackageJson_run {w : World} {dest : JPath} {c : ExampleConfig}
    (hp : readFile w (joinP dest "package.json") = some TEMPLATE_PKG) :
    updatePackageJson c w dest
      = some (writeFile w (joinP dest "package.json") (pkgOut c)) := by
  unfold updatePackageJson
  simp only []
  rw [hp]
  rfl

/-- Fact: an own registry key shadows the prototype chain in `jsIndex`. -/
theorem jsIndex_own {id : String} {c : ExampleConfig} (h : lookupEx id = some c) :
    jsIndex id = .own c := by
  unfold jsIndex
  rw [h]

/-- Symbolic evaluation of a full, successful `createExample` run against a
world whose template directory holds exactly the README template and the
manifest, whose example overlays are absent, and whose paths cannot collide
with the example directory (no fixed path carries the
`example-<id>` segment). -/
theorem createExample_run (w : World) (id : String) (c : ExampleConfig) (base : JPath)
    (hl : lookupEx id = some c)
    (hdir : existsDir w TEMPLATE_DIR = true)
    (hfu : filesUnder w TEMPLATE_DIR
      = [(["README.template.md"], README_TEMPLATE), (["package.json"], TEMPLATE_PKG)])
    (hdu : dirsUnder w TEMPLATE_DIR = [])
    (hcs : readFile w (contractSrcP c) = none)
    (hts : readFile w (testSrcP c) = none)
    (hR : readFile w TPL_README_PATH = some README_TEMPLATE)
    (hf1 : ("example-" ++ c.name) ∉ TPL_README_PATH.segs)
    (hf2 : ("example-" ++ c.name) ∉ (contractSrcP c).segs)
    (hf3 : ("example-" ++ c.name) ∉ (testSrcP c).segs) :
    (createExample w id (some base)).2 = .ok (joinP base ("example-" ++ c.name))
    ∧ (createExample w id (some base)).1.files
        = (joinP (joinP base ("example-" ++ c.name)) "package.json", pkgOut c)
          :: (joinP (joinP base ("example-" ++ c.name)) "README.md", renderedReadme c)
          :: (extendP (joinP base ("example-" ++ c.name)) ["README.template.md"],
              README_TEMPLATE)
          :: (extendP (joinP base ("example-" ++ c.name)) ["package.json"], TEMPLATE_PKG)
          :: w.files
    ∧ (∀ q : JPath, q ∈ w.dirs → q ∈ (createExample w id (some base)).1.dirs) := by
  have hW1 : copyDirectory w TEMPLATE_DIR (joinP base ("example-" ++ c.name))
      = some (World.mk
          ((extendP (joinP base ("example-" ++ c.name)) ["README.template.md"],
              README_TEMPLATE)
            :: (extendP (joinP base ("example-" ++ c.name)) ["package.json"],
              TEMPLATE_PKG)
            :: w.files)
          ((if existsFS w (joinP base ("example-" ++ c.name)) then w
            else mkdirRec w (joinP base ("example-" ++ c.name))).dirs)) := by
    rw [copyDirectory_run hdir hdu, hfu]
    have hfi : (if existsFS w (joinP base ("example-" ++ c.name)) then w
        else mkdirRec w (joinP base ("example-" ++ c.name))).files = w.files := by
      split <;> rfl
    rw [hfi]
    rfl
  have hcs1 : readFile (World.mk
        ((extendP (joinP base ("example-" ++ c.name)) ["README.template.md"],
            README_TEMPLATE)
          :: (extendP (joinP base ("example-" ++ c.name)) ["package.json"], TEMPLATE_PKG)
          :: w.files)
        ((if existsFS w (joinP base ("example-" ++ c.name)) then w
          else mkdirRec w (joinP base ("example-" ++ c.name))).dirs))
      (contractSrcP c) = none := by
    rw [readFile_cons_world, if_neg (extend_exdir_ne base _ _ _ hf2),
        readFile_cons_world, if_neg (extend_exdir_ne base _ _ _ hf2)]
    exact hcs
  have hts1 : readFile (World.mk
        ((extendP (joinP base ("example-" ++ c.name)) ["README.template.md"],
            README_TEMPLATE)
          :: (extendP (joinP base ("example-" ++ c.name)) ["package.json"], TEMPLATE_PKG)
          :: w.files)
        ((if existsFS w (joinP base ("example-" ++ c.name)) then w
          else mkdirRec w (joinP base ("example-" ++ c.name))).dirs))
      (testSrcP c) = none := by
    rw [readFile_cons_world, if_neg (extend_exdir_ne base _ _ _ hf3),
        readFile_cons_world, if_neg (extend_exdir_ne base _ _ _ hf3)]
    exact hts
  have hR1 : readFile (World.mk
        ((extendP (joinP base ("example-" ++ c.name)) ["README.template.md"],
            README_TEMPLATE)
          :: (extendP (joinP base ("example-" ++ c.name)) ["package.json"], TEMPLATE_PKG)
          :: w.files)
        ((if existsFS w (joinP base ("example-" ++ c.name)) then w
          else mkdirRec w (joinP base ("example-" ++ c.name))).dirs))
      TPL_README_PATH = some README_TEMPLATE := by
    rw [readFile_cons_world, if_neg (extend_exdir_ne base _ _ _ hf1),
        readFile_cons_world, if_neg (extend_exdir_ne base _ _ _ hf1)]
    exact hR
  have hp4 : readFile (writeFile (World.mk
        ((extendP (joinP base ("example-" ++ c.name)) ["README.template.md"],
            README_TEMPLATE)
          :: (extendP (joinP base ("example-" ++ c.name)) ["package.json"], TEMPLATE_PKG)
          :: w.files)
        ((if existsFS w (joinP base ("example-" ++ c.name)) then w
          else mkdirRec w (joinP base ("example-" ++ c.name))).dirs))
        (joinP (joinP base ("example-" ++ c.name)) "README.md") (renderedReadme c))
      (joinP (joinP base ("example-" ++ c.name)) "package.json") = some TEMPLATE_PKG := by
    unfold writeFile
    rw [readFile_cons_world, if_neg (joinP_inj _ _ _ (by decide))]
    rw [readFile_cons_world, if_neg ?hne1]
    case hne1 =>
      rw [joinP_eq_extend]
      intro he
      exact (joinP_inj (joinP base ("example-" ++ c.name)) "README.template.md"
        "package.json" (by decide)) ((joinP_eq_extend _ _).trans he)
    rw [readFile_cons_world, if_pos (joinP_eq_extend _ _).symm]
  have hrun : createExample w id (some base)
      = (World.mk
          ((joinP (joinP base ("example-" ++ c.name)) "package.json", pkgOut c)
            :: (joinP (joinP base ("example-" ++ c.name)) "README.md", renderedReadme c)
            :: (extendP (joinP base ("example-" ++ c.name)) ["README.template.md"],
                README_TEMPLATE)
            :: (extendP (joinP base ("example-" ++ c.name)) ["package.json"],
                TEMPLATE_PKG)
            :: w.files)
          ((if existsFS w (joinP base ("example-" ++ c.name)) then w
            else mkdirRec w (joinP base ("example-" ++ c.name))).dirs),
         .ok (joinP base ("example-" ++ c.name))) := by
    unfold createExample
    rw [jsIndex_own hl]
    simp only [Option.getD_some]
    rw [hW1]
    simp only [hcs1, hts1]
    simp only [generateReadme_run hR1]
    simp only [updatePackageJson_run hp4]
    rfl
  refine ⟨by rw [hrun], by rw [hrun], fun q hq => ?_⟩
  rw [hrun]
  simp only []
  split
  · exact hq
  · exact mkdirRec_dirs_mono w _ hq

set_option maxRecDepth 4000 in
/-- Facts every registry entry satisfies: lookup succeeds, the
`example-<id>` directory segment collides with no fixed source path, and the
overlay sources are absent from `repoWorld`. -/
theorem mem_EXAMPLES_facts {id : String} {c : ExampleConfig} (h : (id, c) ∈ EXAMPLES) :
    lookupEx id = some c
    ∧ ("example-" ++ c.name) ∉ TPL_README_PATH.segs
    ∧ ("example-" ++ c.name) ∉ (contractSrcP c).segs
    ∧ ("example-" ++ c.name) ∉ (testSrcP c).segs
    ∧ readFile repoWorld (contractSrcP c) = none
    ∧ readFile repoWorld (testSrcP c) = none := by
  fin_cases h <;> exact ⟨by decide, by decide, by decide, by decide, by decide, by decide⟩

/-- Fact: `readFile` looks only at the files. -/
theorem readFile_of_files_eq {w : World} {fs : List (JPath × String)}
    (h : w.files = fs) (q : JPath) : readFile w q = readFile ⟨fs, []⟩ q := by
  unfold readFile
  rw [h]

/-- Membership makes `List.contains` true. -/
theorem contains_of_mem {q : JPath} {l : List JPath} (h : q ∈ l) : l.contains q = true := by
  simpa [List.contains] using List.elem_iff.mpr h

/-- Running with the default output directory is the same as passing it
explicitly. -/
theorem createExample_none_eq (w : World) (id : String) :
    createExample w id none = createExample w id (some (joinP CWD "generated-examples")) := rfl

/-- Fact: a list satisfies `all f` once every indexed lookup satisfies `f`
(with out-of-range lookups vacuously true). -/
theorem all_of_getD {α : Type} (l : List α) (f : α → Bool)
    (h : ∀ i : Nat, ((l[i]?).map f).getD true = true) : l.all f = true := by
  induction l with
  | nil => rfl
  | cons x xs ih =>
    have h0 := h 0
    rw [List.getElem?_cons_zero, Option.map_some', Option.getD_some] at h0
    rw [List.all_cons, h0, Bool.true_and]
    exact ih (fun i => by have hi := h (i + 1); rwa [List.getElem?_cons_succ] at hi)

set_option maxRecDepth 10000000 in
set_option maxHeartbeats 400000000 in
/-- The rendered README of registry entry 0 is free of `{{` (kernel
evaluation of the full rendering pipeline on that config). -/
theorem c1CheckAt0 :
    ((EXAMPLES[0]?).map (fun p => !occursS "\x7b\x7b" (renderedReadme p.2))).getD true
      = true := by decide!

set_option maxRecDepth 10000000 in
set_option maxHeartbeats 400000000 in
/-- The rendered README of registry entry 1 is free of `{{`. -/
theorem c1CheckAt1 :
    ((EXAMPLES[1]?).map (fun p => !occursS "\x7b\x7b" (renderedReadme p.2))).getD true
      = true := by decide!

set_option maxRecDepth 10000000 in
set_option maxHeartbeats 400000000 in
/-- The rendered README of registry entry 2 is free of `{{`. -/
theorem c1CheckAt2 :
    ((EXAMPLES[2]?).map (fun p => !occursS "\x7b\x7b" (renderedReadme p.2))).getD true
      = true := by decide!

set_option maxRecDepth 10000000 in
set_option maxHeartbeats 400000000 in
/-- The rendered README of registry entry 3 is free of `{{`. -/
theorem c1CheckAt3 :
    ((EXAMPLES[3]?).map (fun p => !occursS "\x7b\x7b" (renderedReadme p.2))).getD true
      = true := by decide!

set_option maxRecDepth 10000000 in
set_option maxHeartbeats 400000000 in
/-- The rendered README of registry entry 4 is free of `{{`. -/
theorem c1CheckAt4 :
    ((EXAMPLES[4]?).map (fun p => !occursS "\x7b\x7b" (renderedReadme p.2))).getD true
      = true := by decide!

set_option maxRecDepth 10000000 in
set_option maxHeartbeats 400000000 in
/-- The rendered README of registry entry 5 is free of `{{`. -/
theorem c1CheckAt5 :
    ((EXAMPLES[5]?).map (fun p => !occursS "\x7b\x7b" (renderedReadme p.2))).getD true
      = true := by decide!

/-- The rendered README of every registry entry is free of `{{`: the six
per-entry kernel evaluations above combined over the index space. -/
theorem c1Check_true : c1Check = true :=
  all_of_getD EXAMPLES (fun p => !occursS "\x7b\x7b" (renderedReadme p.2))
    (fun i => match i with
      | 0 => c1CheckAt0
      | 1 => c1CheckAt1
      | 2 => c1CheckAt2
      | 3 => c1CheckAt3
      | 4 => c1CheckAt4
      | 5 => c1CheckAt5
      | _ + 6 => rfl)

/-- Occurrence is monotone along pattern prefixes. -/
theorem occurs_mono {p2 tok s : List Char} (hp : p2.isPrefixOf tok = true)
    (h : occursL tok s = true) : occursL p2 s = true := by
  induction s with
  | nil =>
    simp only [occursL] at h ⊢
    rw [List.isPrefixOf_iff_prefix] at hp h ⊢
    exact hp.trans h
  | cons ch rest ih =>
    simp only [occursL, Bool.or_eq_true] at h ⊢
    rcases h with h | h
    · left
      rw [List.isPrefixOf_iff_prefix] at hp h ⊢
      exact hp.trans h
    · right
      exact ih h

/-- If a prefix of the token never occurs, the token never occurs. -/
theorem occurs_false_of_prefix {p2 tok s : List Char} (hp : p2.isPrefixOf tok = true)
    (h : occursL p2 s = false) : occursL tok s = false := by
  cases hocc : occursL tok s with
  | false => rfl
  | true =>
    rw [occurs_mono hp hocc] at h
    cases h

/-- Every placeholder key of the substitution table starts with `{{`. -/
theorem braces_prefix_key {c : ExampleConfig} {kv : String × String}
    (h : kv ∈ replacements c) : ("\x7b\x7b".data).isPrefixOf kv.1.data = true := by
  simp only [replacements, List.mem_cons, List.not_mem_nil, or_false] at h
  rcases h with h|h|h|h|h|h|h|h|h|h|h|h|h|h <;> (subst h; dsimp only; decide)

/-! ## Claim C1: the generated README has zero remaining placeholders -/

/-- C1: for every registry id, `createExample` writes at the destination a
README equal to the fully substituted template (each placeholder replaced
globally, lists rendered as newline-joined bullets — that is the content of
`replacements`/`renderTemplate`), and that rendered README retains no
occurrence of any placeholder that has a substitution entry. -/
theorem C1_readme_fully_substituted (id : String) (c : ExampleConfig)
    (h : (id, c) ∈ EXAMPLES) (d : JPath) :
    readFile (createExample repoWorld id (some d)).1
        (joinP (joinP d ("example-" ++ c.name)) "README.md") = some (renderedReadme c)
    ∧ ∀ kv ∈ replacements c, occursS kv.1 (renderedReadme c) = false := by
  obtain ⟨hl, hf1, hf2, hf3, hcs, hts⟩ := mem_EXAMPLES_facts h
  obtain ⟨_, hfiles, _⟩ :=
    createExample_run repoWorld id c d hl rfl (by rfl) rfl hcs hts rfl hf1 hf2 hf3
  constructor
  · rw [readFile_of_files_eq hfiles,
        readFile_cons_world, if_neg (joinP_inj _ _ _ (by decide)),
        readFile_cons_world, if_pos rfl]
  · intro kv hkv
    have hb : occursS "\x7b\x7b" (renderedReadme c) = false := by
      have hall := c1Check_true
      unfold c1Check at hall
      rw [List.all_eq_true] at hall
      have hx := hall (id, c) h
      simpa using hx
    unfold occursS at hb ⊢
    exact occurs_false_of_prefix (braces_prefix_key hkv) hb

set_option maxRecDepth 40000 in
/-- Witness for C1 at `access-control` into `/out`. -/
theorem C1_readme_fully_substituted_witness :
    readFile (createExample repoWorld "access-control" (some ⟨true, ["out"]⟩)).1
        (joinP (joinP ⟨true, ["out"]⟩ ("example-" ++ cfgAC.name)) "README.md")
      = some (renderedReadme cfgAC)
    ∧ ∀ kv ∈ replacements cfgAC, occursS kv.1 (renderedReadme cfgAC) = false :=
  C1_readme_fully_substituted "access-control" cfgAC (by decide) ⟨true, ["out"]⟩

/-! ## Claim C9: the returned destination path -/

set_option maxRecDepth 40000 in
/-- Counterexample to C9 as stated: with the relative output directory
`out`, `createExample` succeeds but returns the *relative* path
`out/example-access-control` — `path.join` keeps the first argument's
relativeness, so the returned path is not absolute for every output
directory argument. -/
theorem C9_counterexample :
    (createExample repoWorld "access-control" (some ⟨false, ["out"]⟩)).2
      = .ok ⟨false, ["out", "example-access-control"]⟩
    ∧ (⟨false, ["out", "example-access-control"]⟩ : JPath).absolute = false := by
  obtain ⟨hl, hf1, hf2, hf3, hcs, hts⟩ :=
    @mem_EXAMPLES_facts "access-control" cfgAC (by decide)
  have h1 := (createExample_run repoWorld "access-control" cfgAC ⟨false, ["out"]⟩
    hl rfl (by rfl) rfl hcs hts rfl hf1 hf2 hf3).1
  refine ⟨h1.trans ?_, rfl⟩
  show GenResult.ok (joinP ⟨false, ["out"]⟩ ("example-" ++ cfgAC.name))
    = GenResult.ok ⟨false, ["out", "example-access-control"]⟩
  rfl

/-- C9 (amended): for every known example id, `createExample` returns
`ok` with the destination path `outputDir/example-<id>` (or
`cwd/generated-examples/example-<id>` when the output directory is omitted);
that path is absolute whenever the output directory argument is absolute or
omitted — but inherits relativeness from a relative argument. -/
theorem C9_returns_destination_path (id : String) (c : ExampleConfig)
    (h : (id, c) ∈ EXAMPLES) (d : Option JPath) :
    (createExample repoWorld id d).2
      = .ok (joinP (d.getD (joinP CWD "generated-examples")) ("example-" ++ c.name))
    ∧ ((∀ p, d = some p → p.absolute = true) →
      (joinP (d.getD (joinP CWD "generated-examples")) ("example-" ++ c.name)).absolute
        = true) := by
  obtain ⟨hl, hf1, hf2, hf3, hcs, hts⟩ := mem_EXAMPLES_facts h
  constructor
  · cases d with
    | none =>
      rw [createExample_none_eq]
      exact (createExample_run repoWorld id c (joinP CWD "generated-examples")
        hl rfl (by rfl) rfl hcs hts rfl hf1 hf2 hf3).1
    | some p =>
      exact (createExample_run repoWorld id c p
        hl rfl (by rfl) rfl hcs hts rfl hf1 hf2 hf3).1
  · intro habs
    cases d with
    | none => rfl
    | some p =>
      have hp := habs p rfl
      simpa [joinP] using hp

set_option maxRecDepth 40000 in
/-- Witness for the amended C9 at `access-control` with an absolute output
directory. -/
theorem C9_returns_destination_path_witness :
    (createExample repoWorld "access-control" (some ⟨true, ["o"]⟩)).2
      = .ok (joinP ((some (⟨true, ["o"]⟩ : JPath)).getD (joinP CWD "generated-examples"))
          ("example-" ++ cfgAC.name))
    ∧ ((∀ p, (some (⟨true, ["o"]⟩ : JPath)) = some p → p.absolute = true) →
      (joinP ((some (⟨true, ["o"]⟩ : JPath)).getD (joinP CWD "generated-examples"))
          ("example-" ++ cfgAC.name)).absolute = true) :=
  C9_returns_destination_path "access-control" cfgAC (by decide) (some ⟨true, ["o"]⟩)

/-! ## Claim C7: regeneration is byte-identical -/

/-- C7: running `createExample` twice with the same id and the same output
directory — the template and example source files unchanged between runs,
i.e. the first run's writes did not land in the template listing — yields
byte-identical README.md and package.json contents at the destination after
the first and after the second run. -/
theorem C7_idempotent_outputs (id : String) (c : ExampleConfig)
    (h : (id, c) ∈ EXAMPLES) (d : JPath)
    (hfu2 : filesUnder (createExample repoWorld id (some d)).1 TEMPLATE_DIR
      = filesUnder repoWorld TEMPLATE_DIR)
    (hdu2 : dirsUnder (createExample repoWorld id (some d)).1 TEMPLATE_DIR = []) :
    readFile (createExample (createExample repoWorld id (some d)).1 id (some d)).1
        (joinP (joinP d ("example-" ++ c.name)) "README.md")
      = readFile (createExample repoWorld id (some d)).1
        (joinP (joinP d ("example-" ++ c.name)) "README.md")
    ∧ readFile (createExample (createExample repoWorld id (some d)).1 id (some d)).1
        (joinP (joinP d ("example-" ++ c.name)) "package.json")
      = readFile (createExample repoWorld id (some d)).1
        (joinP (joinP d ("example-" ++ c.name)) "package.json") := by
  obtain ⟨hl, hf1, hf2, hf3, hcs, hts⟩ := mem_EXAMPLES_facts h
  obtain ⟨_, r1files, r1dirs⟩ :=
    createExample_run repoWorld id c d hl rfl (by rfl) rfl hcs hts rfl hf1 hf2 hf3
  have hread1R : readFile (createExample repoWorld id (some d)).1
      (joinP (joinP d ("example-" ++ c.name)) "README.md") = some (renderedReadme c) := by
    rw [readFile_of_files_eq r1files,
        readFile_cons_world, if_neg (joinP_inj _ _ _ (by decide)),
        readFile_cons_world, if_pos rfl]
  have hread1P : readFile (createExample repoWorld id (some d)).1
      (joinP (joinP d ("example-" ++ c.name)) "package.json") = some (pkgOut c) := by
    rw [readFile_of_files_eq r1files, readFile_cons_world, if_pos rfl]
  have hdir2 : existsDir (createExample repoWorld id (some d)).1 TEMPLATE_DIR = true := by
    unfold existsDir
    exact contains_of_mem (r1dirs TEMPLATE_DIR (by decide))
  have hfu2' : filesUnder (createExample repoWorld id (some d)).1 TEMPLATE_DIR
      = [(["README.template.md"], README_TEMPLATE), (["package.json"], TEMPLATE_PKG)] := by
    rw [hfu2]
    rfl
  have ne1p : joinP (joinP d ("example-" ++ c.name)) "package.json" ≠ contractSrcP c :=
    extend_exdir_ne d ("example-" ++ c.name) ["package.json"] (contractSrcP c) hf2
  have ne1r : joinP (joinP d ("example-" ++ c.name)) "README.md" ≠ contractSrcP c :=
    extend_exdir_ne d ("example-" ++ c.name) ["README.md"] (contractSrcP c) hf2
  have hcs2 : readFile (createExample repoWorld id (some d)).1 (contractSrcP c) = none := by
    rw [readFile_of_files_eq r1files,
        readFile_cons_world, if_neg ne1p,
        readFile_cons_world, if_neg ne1r,
        readFile_cons_world, if_neg (extend_exdir_ne d _ _ _ hf2),
        readFile_cons_world, if_neg (extend_exdir_ne d _ _ _ hf2)]
    exact hcs
  have ne2p : joinP (joinP d ("example-" ++ c.name)) "package.json" ≠ testSrcP c :=
    extend_exdir_ne d ("example-" ++ c.name) ["package.json"] (testSrcP c) hf3
  have ne2r : joinP (joinP d ("example-" ++ c.name)) "README.md" ≠ testSrcP c :=
    extend_exdir_ne d ("example-" ++ c.name) ["README.md"] (testSrcP c) hf3
  have hts2 : readFile (createExample repoWorld id (some d)).1 (testSrcP c) = none := by
    rw [readFile_of_files_eq r1files,
        readFile_cons_world, if_neg ne2p,
        readFile_cons_world, if_neg ne2r,
        readFile_cons_world, if_neg (extend_exdir_ne d _ _ _ hf3),
        readFile_cons_world, if_neg (extend_exdir_ne d _ _ _ hf3)]
    exact hts
  have ne3p : joinP (joinP d ("example-" ++ c.name)) "package.json" ≠ TPL_README_PATH :=
    extend_exdir_ne d ("example-" ++ c.name) ["package.json"] TPL_README_PATH hf1
  have ne3r : joinP (joinP d ("example-" ++ c.name)) "README.md" ≠ TPL_README_PATH :=
    extend_exdir_ne d ("example-" ++ c.name) ["README.md"] TPL_README_PATH hf1
  have hR2 : readFile (createExample repoWorld id (some d)).1 TPL_README_PATH
      = some README_TEMPLATE := by
    rw [readFile_of_files_eq r1files,
        readFile_cons_world, if_neg ne3p,
        readFile_cons_world, if_neg ne3r,
        readFile_cons_world, if_neg (extend_exdir_ne d _ _ _ hf1),
        readFile_cons_world, if_neg (extend_exdir_ne d _ _ _ hf1)]
    rfl
  obtain ⟨_, r2files, _⟩ :=
    createExample_run (createExample repoWorld id (some d)).1 id c d
      hl hdir2 hfu2' hdu2 hcs2 hts2 hR2 hf1 hf2 hf3
  have hread2R : readFile (createExample (createExample repoWorld id (some d)).1
      id (some d)).1 (joinP (joinP d ("example-" ++ c.name)) "README.md")
      = some (renderedReadme c) := by
    rw [readFile_of_files_eq r2files,
        readFile_cons_world, if_neg (joinP_inj _ _ _ (by decide)),
        readFile_cons_world, if_pos rfl]
  have hread2P : readFile (createExample (createExample repoWorld id (some d)).1
      id (some d)).1 (joinP (joinP d ("example-" ++ c.name)) "package.json")
      = some (pkgOut c) := by
    rw [readFile_of_files_eq r2files, readFile_cons_world, if_pos rfl]
  exact ⟨hread2R.trans hread1R.symm, hread2P.trans hread1P.symm⟩

set_option maxRecDepth 100000 in
/-- Witness for C7 at `access-control` into `/out`. -/
theorem C7_idempotent_outputs_witness :
    readFile (createExample (createExample repoWorld "access-control"
        (some ⟨true, ["out"]⟩)).1 "access-control" (some ⟨true, ["out"]⟩)).1
        (joinP (joinP ⟨true, ["out"]⟩ ("example-" ++ cfgAC.name)) "README.md")
      = readFile (createExample repoWorld "access-control" (some ⟨true, ["out"]⟩)).1
        (joinP (joinP ⟨true, ["out"]⟩ ("example-" ++ cfgAC.name)) "README.md")
    ∧ readFile (createExample (createExample repoWorld "access-control"
        (some ⟨true, ["out"]⟩)).1 "access-control" (some ⟨true, ["out"]⟩)).1
        (joinP (joinP ⟨true, ["out"]⟩ ("example-" ++ cfgAC.name)) "package.json")
      = readFile (createExample repoWorld "access-control" (some ⟨true, ["out"]⟩)).1
        (joinP (joinP ⟨true, ["out"]⟩ ("example-" ++ cfgAC.name)) "package.json") :=
  C7_idempotent_outputs "access-control" cfgAC (by decide) ⟨true, ["out"]⟩
    (by decide) (by decide)

set_option maxRecDepth 200000 in
/-- C2: for every category id, `createCategory` creates exactly one
`example-<memberId>` subdirectory of the category directory per member, in
declared order; writes the single category README with the
`generateCategoryReadme` content; and that content's per-example link list
carries one (non-empty) entry exactly for each member resolving in
`EXAMPLES`. -/
theorem C2_category_layout (cat : String) (conf : CategoryConfig)
    (h : (cat, conf) ∈ CATEGORIES) :
    childDirNames (createCategory repoWorld cat (some ⟨true, ["out2"]⟩)).1
        (joinP ⟨true, ["out2"]⟩ ("category-" ++ conf.name))
      = conf.examples.map (fun e => "example-" ++ e)
    ∧ readFile (createCategory repoWorld cat (some ⟨true, ["out2"]⟩)).1
        (joinP (joinP ⟨true, ["out2"]⟩ ("category-" ++ conf.name)) "README.md")
      = some (categoryReadme conf)
    ∧ ((exampleLinksList conf).filter (fun l => l ≠ "")).length
      = (conf.examples.filter (fun e => (lookupEx e).isSome)).length := by
  fin_cases h <;> exact ⟨by decide, rfl, by decide⟩

set_option maxRecDepth 200000 in
/-- Witness for C2 at the `basics` category. -/
theorem C2_category_layout_witness :
    childDirNames (createCategory repoWorld "basics" (some ⟨true, ["out2"]⟩)).1
        (joinP ⟨true, ["out2"]⟩ ("category-" ++ catBasics.name))
      = catBasics.examples.map (fun e => "example-" ++ e)
    ∧ readFile (createCategory repoWorld "basics" (some ⟨true, ["out2"]⟩)).1
        (joinP (joinP ⟨true, ["out2"]⟩ ("category-" ++ catBasics.name)) "README.md")
      = some (categoryReadme catBasics)
    ∧ ((exampleLinksList catBasics).filter (fun l => l ≠ "")).length
      = (catBasics.examples.filter (fun e => (lookupEx e).isSome)).length :=
  C2_category_layout "basics" catBasics (by decide)

set_option maxRecDepth 40000 in
/-- Witness for C10 at the first registry entry. -/
theorem C10_registry_coherent_witness : cfgAC.name = "access-control" :=
  C10_registry_coherent.2.1 ("access-control", cfgAC) (by decide)
